import Mathlib

/-!
# StackIt backend — verification of the scoring / consistency engine

Shallow embedding of the community-scoring core of the StackIt Q&A backend:
the vote engine (`services/vote_service.py`, `app/api/v1/votes.py`), the
acceptance state machine (`services/answer_service.py`,
`app/api/v1/answers.py`) and the counter maintainer
(`services/question_service.py`, `app/api/v1/questions.py`).

Rows of the relational tables are Lean structures; the database session is a
record of lists of rows.  SQLAlchemy's `query(...).filter(...).first()`
becomes `List.find?`, and an in-place mutation of the object returned by
`first()` becomes `modifyFirst`: the first matching row is replaced, the rest
of the list is untouched.  Each HTTP handler becomes a function
`... → DB → Except ApiError DB`; a raised `HTTPException` (always followed by
`db.rollback()` in the source, or raised before any write) becomes an
`Except.error`, and the committed database is then the unchanged input.
-/

namespace StackIt

/-- Replace the first element satisfying `p` by its image under `f`,
mirroring a Python mutation of the single object returned by
`query(...).first()`. -/
def modifyFirst (p : α → Bool) (f : α → α) : List α → List α
  | [] => []
  | x :: xs => if p x then f x :: xs else x :: modifyFirst p f xs

/-! ## Data model (`database/models/*.py`) -/

/-- `users` row (fields used by the scoring core). -/
structure User where
  id : Nat
  reputation_score : Int
  questions_count : Int
  answers_count : Int
  is_admin : Bool
  is_verified : Bool
deriving DecidableEq

/-- `questions` row (fields used by the scoring core). -/
structure Question where
  id : Nat
  author_id : Nat
  answer_count : Int
  is_closed : Bool
  has_accepted_answer : Bool
  accepted_answer_id : Option Nat
deriving DecidableEq

/-- `answers` row (fields used by the scoring core). -/
structure Answer where
  id : Nat
  question_id : Nat
  author_id : Nat
  vote_score : Int
  comment_count : Int
  is_accepted : Bool
deriving DecidableEq

/-- `votes` row: unique `(user_id, answer_id)` pair, `is_upvote` direction. -/
structure Vote where
  id : Nat
  user_id : Nat
  answer_id : Nat
  is_upvote : Bool
deriving DecidableEq

/-- `tags` row. -/
structure Tag where
  id : Nat
  name : String
  usage_count : Int
deriving DecidableEq

/-- `question_tags` join row. -/
structure QuestionTag where
  question_id : Nat
  tag_id : Nat
deriving DecidableEq

/-- `comments` row (fields used by the counter maintainer). -/
structure Comment where
  id : Nat
  answer_id : Nat
  author_id : Nat
deriving DecidableEq

/-- The database session state: one list of live rows per table. -/
structure DB where
  users : List User
  questions : List Question
  answers : List Answer
  votes : List Vote
  tags : List Tag
  question_tags : List QuestionTag
  comments : List Comment
deriving DecidableEq

/-- Error taxonomy of the handlers.  `selfVoteForbidden` is the
self-vote rejection (`400`/`403 "cannot vote on your own answer"`),
`verificationRequired` the `403 "Email verification required"`,
`alreadyVoted` the `400 "You have already voted"`, `internalError` an
uncaught exception (HTTP 500, transaction not committed). -/
inductive ApiError where
  | notFound
  | forbidden
  | selfVoteForbidden
  | verificationRequired
  | alreadyVoted
  | badRequest
  | internalError
deriving DecidableEq

/-! ## Row lookups and single-row updates -/

/-- `db.query(User).filter(User.id == uid).first()`. -/
def findUser (db : DB) (uid : Nat) : Option User :=
  db.users.find? (fun u => u.id == uid)

/-- `db.query(Question).filter(Question.id == qid).first()`. -/
def findQuestion (db : DB) (qid : Nat) : Option Question :=
  db.questions.find? (fun q => q.id == qid)

/-- `db.query(Answer).filter(Answer.id == aid).first()`. -/
def findAnswer (db : DB) (aid : Nat) : Option Answer :=
  db.answers.find? (fun a => a.id == aid)

/-- `db.query(Vote).filter(user_id == uid, answer_id == aid).first()`. -/
def findVotePair (db : DB) (uid aid : Nat) : Option Vote :=
  db.votes.find? (fun v => v.user_id == uid && v.answer_id == aid)

/-- `db.query(Vote).filter(Vote.id == vid).first()`. -/
def findVote (db : DB) (vid : Nat) : Option Vote :=
  db.votes.find? (fun v => v.id == vid)

/-- Mutate the (first) user row with the given id. -/
def modifyUser (db : DB) (uid : Nat) (f : User → User) : DB :=
  { db with users := modifyFirst (fun u => u.id == uid) f db.users }

/-- Mutate the (first) question row with the given id. -/
def modifyQuestion (db : DB) (qid : Nat) (f : Question → Question) : DB :=
  { db with questions := modifyFirst (fun q => q.id == qid) f db.questions }

/-- Mutate the (first) answer row with the given id. -/
def modifyAnswer (db : DB) (aid : Nat) (f : Answer → Answer) : DB :=
  { db with answers := modifyFirst (fun a => a.id == aid) f db.answers }

/-- Mutate the (first) vote row for a `(user_id, answer_id)` pair. -/
def modifyVotePair (db : DB) (uid aid : Nat) (f : Vote → Vote) : DB :=
  { db with votes := modifyFirst (fun v => v.user_id == uid && v.answer_id == aid) f db.votes }

/-- Mutate the (first) vote row with the given id. -/
def modifyVote (db : DB) (vid : Nat) (f : Vote → Vote) : DB :=
  { db with votes := modifyFirst (fun v => v.id == vid) f db.votes }

/-- Fresh primary key for an inserted vote row. -/
def freshVoteId (db : DB) : Nat :=
  (db.votes.map (fun v => v.id)).foldr max 0 + 1

/-- Fresh primary key for an inserted tag row. -/
def freshTagId (db : DB) : Nat :=
  (db.tags.map (fun t => t.id)).foldr max 0 + 1

/-- `answer.author.reputation_score = max(0, ... + delta)` guarded by
`if answer.author:` — the clamped reputation write used by the vote engine
and by the unaccept step of the acceptance machine. -/
def applyReputation (db : DB) (uid : Nat) (delta : Int) : DB :=
  match findUser db uid with
  | none => db
  | some _ => modifyUser db uid
      (fun u => { u with reputation_score := max 0 (u.reputation_score + delta) })

/-- `answer.author.reputation_score += delta` guarded by `if answer.author:`
— the unclamped reputation write used when an answer is accepted. -/
def addReputation (db : DB) (uid : Nat) (delta : Int) : DB :=
  match findUser db uid with
  | none => db
  | some _ => modifyUser db uid
      (fun u => { u with reputation_score := u.reputation_score + delta })

/-! ## Vote engine — `services/vote_service.py` -/

/-- `POST /answers/{answer_id}/vote` (`vote_on_answer`): the cast-or-update
operation.  Looks up the answer (404), rejects self-votes (400), then either
flips / keeps an existing vote row or inserts a new one, adjusting
`answer.vote_score` and the author's clamped `reputation_score`. -/
def vote_on_answer (currentUserId answerId : Nat) (is_upvote : Bool) (db : DB) :
    Except ApiError DB :=
  match findAnswer db answerId with
  | none => .error .notFound
  | some answer =>
    if answer.author_id == currentUserId then .error .selfVoteForbidden
    else
      match findVotePair db currentUserId answerId with
      | some existing =>
        -- `existing_vote.is_upvote = vote_data.is_upvote` (in-place update)
        let db1 := modifyVotePair db currentUserId answerId
          (fun v => { v with is_upvote := is_upvote })
        if existing.is_upvote && !is_upvote then
          -- upvote → downvote
          let db2 := modifyAnswer db1 answerId
            (fun a => { a with vote_score := a.vote_score - 2 })
          .ok (applyReputation db2 answer.author_id (-20))
        else if !existing.is_upvote && is_upvote then
          -- downvote → upvote
          let db2 := modifyAnswer db1 answerId
            (fun a => { a with vote_score := a.vote_score + 2 })
          .ok (applyReputation db2 answer.author_id 20)
        else
          -- same vote type: no change needed
          .ok db1
      | none =>
        let newVote : Vote :=
          { id := freshVoteId db, user_id := currentUserId,
            answer_id := answerId, is_upvote := is_upvote }
        let db1 : DB := { db with votes := db.votes ++ [newVote] }
        let db2 := modifyAnswer db1 answerId
          (fun a => { a with vote_score := a.vote_score + (if is_upvote then 1 else -1) })
        .ok (applyReputation db2 answer.author_id (if is_upvote then 10 else -2))

/-- `DELETE /answers/{answer_id}/vote` (`remove_vote`): deletes the caller's
vote row and reverses its score / reputation effect. -/
def remove_vote (currentUserId answerId : Nat) (db : DB) : Except ApiError DB :=
  match findAnswer db answerId with
  | none => .error .notFound
  | some answer =>
    match findVotePair db currentUserId answerId with
    | none => .error .notFound
    | some vote =>
      let db1 := modifyAnswer db answerId
        (fun a => { a with vote_score := a.vote_score + (if vote.is_upvote then -1 else 1) })
      let db2 := applyReputation db1 answer.author_id (if vote.is_upvote then -10 else 2)
      .ok { db2 with
        votes := db2.votes.eraseP (fun v => v.user_id == currentUserId && v.answer_id == answerId) }

/-! ## Acceptance state machine — `services/answer_service.py` -/

/-- `PUT /answers/{answer_id}/accept` (`accept_answer`): only the question
author may accept (403); closed questions reject (400).  If the question's
`has_accepted_answer` flag is set, the first currently-accepted answer of the
question is cleared and its author's reputation clamped down by 15; then the
target answer is marked accepted, the question's flag and
`accepted_answer_id` are set, and the target author's reputation is raised by
15 (unclamped).  A missing parent question would be an `AttributeError` on
`answer.question` in the source (HTTP 500, nothing committed). -/
def accept_answer (currentUserId answerId : Nat) (db : DB) : Except ApiError DB :=
  match findAnswer db answerId with
  | none => .error .notFound
  | some answer =>
    match findQuestion db answer.question_id with
    | none => .error .internalError
    | some question =>
      if question.author_id != currentUserId then .error .forbidden
      else if question.is_closed then .error .badRequest
      else
        let db1 :=
          if question.has_accepted_answer then
            match db.answers.find?
                (fun a => a.question_id == answer.question_id && a.is_accepted) with
            | some cur =>
              let dbA := modifyAnswer db cur.id (fun a => { a with is_accepted := false })
              applyReputation dbA cur.author_id (-15)
            | none => db
          else db
        let db2 := modifyAnswer db1 answerId (fun a => { a with is_accepted := true })
        let db3 := modifyQuestion db2 answer.question_id
          (fun q => { q with has_accepted_answer := true,
                             accepted_answer_id := some answerId })
        .ok (addReputation db3 answer.author_id 15)

/-- `POST /answers` (`create_answer`): rejects a missing (404) or closed
(400) question, then inserts the answer row and increments
`question.answer_count` and `current_user.answers_count`.  Only the
counter-relevant effects are modelled; the row's content is omitted. -/
def create_answer (currentUserId questionId newAnswerId : Nat) (db : DB) :
    Except ApiError DB :=
  match findQuestion db questionId with
  | none => .error .notFound
  | some question =>
    if question.is_closed then .error .badRequest
    else
      let newAnswer : Answer :=
        { id := newAnswerId, question_id := questionId, author_id := currentUserId,
          vote_score := 0, comment_count := 0, is_accepted := false }
      let db1 : DB := { db with answers := db.answers ++ [newAnswer] }
      let db2 := modifyQuestion db1 questionId
        (fun q => { q with answer_count := q.answer_count + 1 })
      .ok (modifyUser db2 currentUserId
        (fun u => { u with answers_count := u.answers_count + 1 }))

/-! ## Dedicated vote endpoints — `app/api/v1/votes.py`

These three handlers maintain the vote rows and `answer.vote_score` but never
touch any user's `reputation_score`. -/

/-- `POST /votes/` (`create_vote`): requires a verified user (403), an
existing answer (404), no self-vote (`can_vote_on_answer`, 403) and no
existing vote by the user on the answer (400); then inserts the vote row and
moves `answer.vote_score` by ±1. -/
def create_vote (currentUser : User) (answerId : Nat) (is_upvote : Bool) (db : DB) :
    Except ApiError DB :=
  if !currentUser.is_verified then .error .verificationRequired
  else
    match findAnswer db answerId with
    | none => .error .notFound
    | some answer =>
      if !(decide (currentUser.id ≠ answer.author_id)) then .error .selfVoteForbidden
      else
        match findVotePair db currentUser.id answerId with
        | some _ => .error .alreadyVoted
        | none =>
          let newVote : Vote :=
            { id := freshVoteId db, user_id := currentUser.id,
              answer_id := answerId, is_upvote := is_upvote }
          let db1 : DB := { db with votes := db.votes ++ [newVote] }
          .ok (modifyAnswer db1 answerId
            (fun a => { a with vote_score := a.vote_score + (if is_upvote then 1 else -1) }))

/-- `PUT /votes/{vote_id}` (`update_vote`): only the vote owner (403); a
direction change moves the answer's score by ±2 and flips the row; a
same-direction update commits nothing new.  A vote row whose answer is gone
would make `answer.vote_score -= 2` an `AttributeError` (HTTP 500). -/
def update_vote (currentUser : User) (voteId : Nat) (is_upvote : Bool) (db : DB) :
    Except ApiError DB :=
  match findVote db voteId with
  | none => .error .notFound
  | some vote =>
    if vote.user_id != currentUser.id then .error .forbidden
    else if vote.is_upvote != is_upvote then
      match findAnswer db vote.answer_id with
      | none => .error .internalError
      | some _ =>
        let db1 := modifyAnswer db vote.answer_id
          (fun a => { a with vote_score := a.vote_score + (if vote.is_upvote && !is_upvote then -2 else 2) })
        .ok (modifyVote db1 voteId (fun v => { v with is_upvote := is_upvote }))
    else .ok db

/-- `DELETE /votes/{vote_id}` (`delete_vote`): only the vote owner (403);
reverses the answer's score by ±1 (skipped if the answer row is gone) and
deletes the vote row. -/
def delete_vote (currentUser : User) (voteId : Nat) (db : DB) : Except ApiError DB :=
  match findVote db voteId with
  | none => .error .notFound
  | some vote =>
    if vote.user_id != currentUser.id then .error .forbidden
    else
      let db1 :=
        match findAnswer db vote.answer_id with
        | none => db
        | some _ => modifyAnswer db vote.answer_id
            (fun a => { a with vote_score := a.vote_score + (if vote.is_upvote then -1 else 1) })
      .ok { db1 with votes := db1.votes.eraseP (fun v => v.id == voteId) }

/-! ## Toggle-accept endpoint — `app/api/v1/answers.py` -/

/-- `POST /answers/{answer_id}/accept` (`accept_answer` in
`app/api/v1/answers.py`, renamed here to avoid the name collision with the
service handler): a boolean toggle guarded by `can_accept_answer` (question
author or admin).  Accepting first clears the answer named by
`question.accepted_answer_id` (if any), then marks the target; unaccepting
clears the *target* answer's flag and nulls the question's pointer without
checking that the target was the accepted answer.  No reputation is
touched. -/
def v1_accept_answer (currentUser : User) (answerId : Nat) (is_accepted : Bool)
    (db : DB) : Except ApiError DB :=
  match findAnswer db answerId with
  | none => .error .notFound
  | some answer =>
    match findQuestion db answer.question_id with
    | none => .error .internalError
    | some question =>
      if !(currentUser.id == question.author_id || currentUser.is_admin) then
        .error .forbidden
      else if is_accepted then
        let db1 :=
          match question.accepted_answer_id with
          | some oldId =>
            match findAnswer db oldId with
            | some _ => modifyAnswer db oldId (fun a => { a with is_accepted := false })
            | none => db
          | none => db
        let db2 := modifyAnswer db1 answerId (fun a => { a with is_accepted := true })
        .ok (modifyQuestion db2 answer.question_id
          (fun q => { q with accepted_answer_id := some answerId,
                             has_accepted_answer := true }))
      else
        let db1 := modifyAnswer db answerId (fun a => { a with is_accepted := false })
        .ok (modifyQuestion db1 answer.question_id
          (fun q => { q with accepted_answer_id := none,
                             has_accepted_answer := false }))

/-! ## Tag-set update — `app/api/v1/questions.py` -/

/-- `tag.usage_count += 1` on the (first) tag row with the given id. -/
def incTagUsage (db : DB) (tagId : Nat) : DB :=
  { db with tags := modifyFirst (fun x => x.id == tagId) (fun x => { x with usage_count := x.usage_count + 1 }) db.tags }

/-- One step of the `for tag_name in question_update.tag_names` loop of
`update_question`: look the tag up by name, create it with `usage_count = 0`
if missing, add the join row and increment `usage_count`. -/
def addTagToQuestion (questionId : Nat) (db : DB) (name : String) : DB :=
  match db.tags.find? (fun t => t.name == name) with
  | some t =>
    let db1 : DB :=
      { db with question_tags := db.question_tags ++ [{ question_id := questionId, tag_id := t.id }] }
    incTagUsage db1 t.id
  | none =>
    let newTag : Tag := { id := freshTagId db, name := name, usage_count := 0 }
    let db1 : DB := { db with tags := db.tags ++ [newTag] }
    let db2 : DB :=
      { db1 with question_tags := db1.question_tags ++ [{ question_id := questionId, tag_id := newTag.id }] }
    incTagUsage db2 newTag.id

/-- `PUT /questions/{question_id}` (`update_question`), restricted to the
`tag_names is not None` branch that maintains the tag counters: after the
404 / permission checks it deletes every QuestionTag row of the question —
*without* touching any `usage_count` — and then re-creates the new tag set,
incrementing `usage_count` once per created row. -/
def update_question (currentUser : User) (questionId : Nat) (tag_names : List String)
    (db : DB) : Except ApiError DB :=
  match findQuestion db questionId with
  | none => .error .notFound
  | some question =>
    if !(currentUser.id == question.author_id || currentUser.is_admin) then
      .error .forbidden
    else
      let db1 : DB :=
        { db with question_tags := db.question_tags.filter (fun qt => qt.question_id != questionId) }
      .ok (tag_names.foldl (addTagToQuestion questionId) db1)

/-! ## Remaining counter-maintainer operations -/

/-- One step of `get_or_create_tags` (`services/question_service.py`): the
name is lowercased and stripped, the tag is looked up by the clean name and
created with `usage_count = 0` if missing, and its `usage_count` is
incremented; the resolved tag id is returned for the join-row loop. -/
def get_or_create_tag (db : DB) (name : String) : DB × Nat :=
  let clean := name.toLower.trim
  match db.tags.find? (fun t => t.name == clean) with
  | some t => (incTagUsage db t.id, t.id)
  | none =>
    let newTag : Tag := { id := freshTagId db, name := clean, usage_count := 0 }
    let db1 : DB := { db with tags := db.tags ++ [newTag] }
    (incTagUsage db1 newTag.id, newTag.id)

/-- `get_or_create_tags` over the whole `tag_names` list, returning the
resolved tag ids in order. -/
def get_or_create_tags (db : DB) (names : List String) : DB × List Nat :=
  names.foldl
    (fun acc name =>
      let r := get_or_create_tag acc.1 name
      (r.1, acc.2 ++ [r.2]))
    (db, [])

/-- `POST /questions` (`create_question` in `services/question_service.py`):
resolves the tags (incrementing each `usage_count`), inserts the question
row and one QuestionTag row per resolved tag, and increments the caller's
`questions_count`.  A duplicate resolved tag would violate the
`(question_id, tag_id)` unique constraint at commit, raising an
`IntegrityError` that the handler turns into a rolled-back HTTP 500. -/
def create_question (currentUserId newQuestionId : Nat) (tag_names : List String)
    (db : DB) : Except ApiError DB :=
  let r := get_or_create_tags db tag_names
  if r.2.Nodup then
    let newQ : Question :=
      { id := newQuestionId, author_id := currentUserId, answer_count := 0,
        is_closed := false, has_accepted_answer := false, accepted_answer_id := none }
    let db2 : DB := { r.1 with questions := r.1.questions ++ [newQ] }
    let rows : List QuestionTag :=
      r.2.map (fun tid => { question_id := newQuestionId, tag_id := tid })
    let db3 : DB := { db2 with question_tags := db2.question_tags ++ rows }
    .ok (modifyUser db3 currentUserId
      (fun u => { u with questions_count := u.questions_count + 1 }))
  else .error .internalError

/-- `DELETE /questions/{question_id}` (`delete_question` in
`app/api/v1/questions.py`): 404, author-or-admin check, then deletes the
question row — the cascade removes its QuestionTag rows, its answers and
those answers' votes and comments, with *no* `usage_count` or per-answer
counter compensation — and clamps the author's `questions_count` down by
one. -/
def delete_question (currentUser : User) (questionId : Nat) (db : DB) :
    Except ApiError DB :=
  match findQuestion db questionId with
  | none => .error .notFound
  | some question =>
    if !(currentUser.id == question.author_id || currentUser.is_admin) then
      .error .forbidden
    else
      let gone := db.answers.filter (fun a => a.question_id == questionId)
      let db1 : DB := { db with
        questions := db.questions.filter (fun q => q.id != questionId),
        answers := db.answers.filter (fun a => a.question_id != questionId),
        votes := db.votes.filter (fun v => !(gone.any (fun a => a.id == v.answer_id))),
        comments := db.comments.filter (fun c => !(gone.any (fun a => a.id == c.answer_id))),
        question_tags := db.question_tags.filter (fun qt => qt.question_id != questionId) }
      .ok (modifyUser db1 question.author_id
        (fun u => { u with questions_count := max 0 (u.questions_count - 1) }))

/-- `DELETE /answers/{answer_id}` (`delete_answer` in
`app/api/v1/answers.py`): 404, author-or-admin check; a missing parent
question is an `AttributeError` on `answer.question` (HTTP 500).  Clears the
question's acceptance pointer if the answer was accepted, clamps
`question.answer_count` and the author's `answers_count` down by one, and
deletes the answer row (the cascade removes its votes and comments). -/
def delete_answer (currentUser : User) (answerId : Nat) (db : DB) :
    Except ApiError DB :=
  match findAnswer db answerId with
  | none => .error .notFound
  | some answer =>
    if !(currentUser.id == answer.author_id || currentUser.is_admin) then
      .error .forbidden
    else
      match findQuestion db answer.question_id with
      | none => .error .internalError
      | some _ =>
        let db1 :=
          if answer.is_accepted then
            modifyQuestion db answer.question_id
              (fun q => { q with accepted_answer_id := none, has_accepted_answer := false })
          else db
        let db2 := modifyQuestion db1 answer.question_id
          (fun q => { q with answer_count := max 0 (q.answer_count - 1) })
        let db3 := modifyUser db2 answer.author_id
          (fun u => { u with answers_count := max 0 (u.answers_count - 1) })
        .ok { db3 with
          answers := db3.answers.filter (fun a => a.id != answerId),
          votes := db3.votes.filter (fun v => v.answer_id != answerId),
          comments := db3.comments.filter (fun c => c.answer_id != answerId) }

/-- `POST /comments/` (`create_comment` in `app/api/v1/comments.py`):
requires a verified user (403) and an existing answer (404); inserts the
comment row and increments `answer.comment_count`. -/
def create_comment (currentUser : User) (answerId newCommentId : Nat) (db : DB) :
    Except ApiError DB :=
  if !currentUser.is_verified then .error .verificationRequired
  else
    match findAnswer db answerId with
    | none => .error .notFound
    | some _ =>
      let newComment : Comment :=
        { id := newCommentId, answer_id := answerId, author_id := currentUser.id }
      let db1 : DB := { db with comments := db.comments ++ [newComment] }
      .ok (modifyAnswer db1 answerId
        (fun a => { a with comment_count := a.comment_count + 1 }))

/-- `DELETE /comments/{comment_id}` (`delete_comment` in
`app/api/v1/comments.py`): 404, author-or-admin check
(`can_delete_comment`); a dangling `comment.answer` is an `AttributeError`
(HTTP 500).  Clamps `answer.comment_count` down by one and deletes the
comment row. -/
def delete_comment (currentUser : User) (commentId : Nat) (db : DB) :
    Except ApiError DB :=
  match db.comments.find? (fun c => c.id == commentId) with
  | none => .error .notFound
  | some comment =>
    if !(currentUser.id == comment.author_id || currentUser.is_admin) then
      .error .forbidden
    else
      match findAnswer db comment.answer_id with
      | none => .error .internalError
      | some _ =>
        let db1 := modifyAnswer db comment.answer_id
          (fun a => { a with comment_count := max 0 (a.comment_count - 1) })
        .ok { db1 with comments := db1.comments.eraseP (fun c => c.id == commentId) }

/-! ## Derived notions used by the stated properties -/

/-- Contribution of one vote row to an answer's ledger sum:
`+1` per upvote, `-1` per downvote of that answer, `0` otherwise. -/
def voteContrib (aid : Nat) (v : Vote) : Int :=
  if v.answer_id == aid then (if v.is_upvote then 1 else -1) else 0

/-- Ledger sum of an answer: `sum(+1 for upvote, -1 for downvote)` over its
live vote rows. -/
def voteSum (votes : List Vote) (aid : Nat) : Int :=
  votes.foldr (fun v acc => voteContrib aid v + acc) 0

/-- Ledger/counter equivalence: every answer's stored `vote_score` equals the
sum over its live vote rows. -/
def ScoreInv (db : DB) : Prop :=
  ∀ a ∈ db.answers, a.vote_score = voteSum db.votes a.id

/-- Primary keys of the `answers` table are distinct. -/
def AnswersKeyed (db : DB) : Prop :=
  (db.answers.map (fun a => a.id)).Nodup

/-- The answers of question `qid` currently flagged accepted. -/
def acceptedAnswers (db : DB) (qid : Nat) : List Answer :=
  db.answers.filter (fun a => a.question_id == qid && a.is_accepted)

instance (db : DB) : Decidable (ScoreInv db) := by
  unfold ScoreInv
  infer_instance

instance (db : DB) : Decidable (AnswersKeyed db) := by
  unfold AnswersKeyed
  infer_instance

/-- Commit-or-rollback semantics of one handler call: on success the
handler's database is committed; on a raised `HTTPException` the source calls
`db.rollback()` (or had not written anything yet), so the committed database
is the unchanged input. -/
def runOp (db : DB) : Except ApiError DB → DB
  | .ok db' => db'
  | .error _ => db

/-- The vote operations of the two vote stacks: service-level
cast-or-update (`vote_on_answer`) and remove (`remove_vote`), and the
dedicated v1 endpoints (`create_vote` / `update_vote` / `delete_vote`). -/
inductive VoteOp where
  | cast (userId answerId : Nat) (is_upvote : Bool)
  | drop (userId answerId : Nat)
  | v1Create (user : User) (answerId : Nat) (is_upvote : Bool)
  | v1Update (user : User) (voteId : Nat) (is_upvote : Bool)
  | v1Delete (user : User) (voteId : Nat)

/-- Dispatch a vote operation to its handler. -/
def voteOpCall : VoteOp → DB → Except ApiError DB
  | .cast u a b, db => vote_on_answer u a b db
  | .drop u a, db => remove_vote u a db
  | .v1Create u a b, db => create_vote u a b db
  | .v1Update u v b, db => update_vote u v b db
  | .v1Delete u v, db => delete_vote u v db

/-- The committed database after one vote operation. -/
def applyVoteOp (db : DB) (op : VoteOp) : DB :=
  runOp db (voteOpCall op db)

/-- The committed database after a sequence of vote operations. -/
def applyVoteOps (db : DB) (ops : List VoteOp) : DB :=
  ops.foldl applyVoteOp db

/-- Every modelled public operation of the vote engine, the acceptance state
machine and the counter maintainer: the five vote operations, the two accept
endpoints, answer create/delete, comment create/delete, question
create/delete and the tag-set update. -/
inductive CoreOp where
  | vote (op : VoteOp)
  | accept (userId answerId : Nat)
  | v1Accept (user : User) (answerId : Nat) (is_accepted : Bool)
  | newAnswer (userId questionId newAnswerId : Nat)
  | dropAnswer (user : User) (answerId : Nat)
  | newComment (user : User) (answerId newCommentId : Nat)
  | dropComment (user : User) (commentId : Nat)
  | newQuestion (userId newQuestionId : Nat) (tag_names : List String)
  | dropQuestion (user : User) (questionId : Nat)
  | retag (user : User) (questionId : Nat) (tag_names : List String)

/-- Dispatch a core operation to its handler. -/
def coreOpCall : CoreOp → DB → Except ApiError DB
  | .vote op, db => voteOpCall op db
  | .accept u a, db => accept_answer u a db
  | .v1Accept u a b, db => v1_accept_answer u a b db
  | .newAnswer u q a, db => create_answer u q a db
  | .dropAnswer u a, db => delete_answer u a db
  | .newComment u a c, db => create_comment u a c db
  | .dropComment u c, db => delete_comment u c db
  | .newQuestion u q ts, db => create_question u q ts db
  | .dropQuestion u q, db => delete_question u q db
  | .retag u q ts, db => update_question u q ts db

/-- The committed database after one core operation. -/
def applyCoreOp (op : CoreOp) (db : DB) : DB :=
  runOp db (coreOpCall op db)

/-! ## Concrete states used as witnesses and counterexamples -/

/-- A verified non-admin user with the given id and reputation. -/
def mkUser (i : Nat) (rep : Int) : User :=
  { id := i, reputation_score := rep, questions_count := 0, answers_count := 0,
    is_admin := false, is_verified := true }

/-- An open question authored by user 1 with no accepted answer. -/
def exQuestion : Question :=
  { id := 1, author_id := 1, answer_count := 2, is_closed := false,
    has_accepted_answer := false, accepted_answer_id := none }

/-- Answer 1 of question 1, authored by user 2. -/
def exAnswerX : Answer :=
  { id := 1, question_id := 1, author_id := 2, vote_score := 0,
    comment_count := 0, is_accepted := false }

/-- Answer 2 of question 1, authored by user 3. -/
def exAnswerY : Answer :=
  { id := 2, question_id := 1, author_id := 3, vote_score := 0,
    comment_count := 0, is_accepted := false }

/-- Three users, one open question with two answers, no votes or tags. -/
def exDB : DB :=
  { users := [mkUser 1 0, mkUser 2 0, mkUser 3 0], questions := [exQuestion],
    answers := [exAnswerX, exAnswerY], votes := [], tags := [],
    question_tags := [], comments := [] }

/-- State in which answer 1 is already the accepted answer of question 1 and
its author (user 2) has reputation 20. -/
def exDBAccepted : DB :=
  { users := [mkUser 1 0, mkUser 2 20, mkUser 3 0],
    questions := [{ exQuestion with has_accepted_answer := true,
                                    accepted_answer_id := some 1 }],
    answers := [{ exAnswerX with is_accepted := true }, exAnswerY],
    votes := [], tags := [], question_tags := [], comments := [] }

/-- Consistent tag state: question 1 carries the single live QuestionTag row
referencing tag `python`, whose `usage_count` is 1. -/
def exDBTags : DB :=
  { users := [mkUser 1 0], questions := [exQuestion], answers := [],
    votes := [], tags := [{ id := 1, name := "python", usage_count := 1 }],
    question_tags := [{ question_id := 1, tag_id := 1 }], comments := [] }

/-! ## Library: `modifyFirst`, `find?` and ledger-sum lemmas -/

theorem modifyFirst_eq_of_find?_eq_none {p : α → Bool} {f : α → α} {l : List α}
    (h : l.find? p = none) : modifyFirst p f l = l := by
  induction l with
  | nil => rfl
  | cons x xs ih =>
    rw [List.find?_cons] at h
    by_cases hx : p x
    · simp [hx] at h
    · simp only [modifyFirst, hx, if_neg, Bool.false_eq_true, not_false_iff, ite_false]
      rw [ih (by simpa [hx] using h)]

theorem modifyFirst_eq_self {p : α → Bool} {f : α → α} {l : List α} {x : α}
    (h : l.find? p = some x) (hfx : f x = x) : modifyFirst p f l = l := by
  induction l with
  | nil => simp at h
  | cons y ys ih =>
    rw [List.find?_cons] at h
    by_cases hy : p y
    · simp only [hy, ite_true, Option.some.injEq] at h
      subst h
      simp [modifyFirst, hy, hfx]
    · simp only [hy, Bool.false_eq_true, ite_false] at h
      simp [modifyFirst, hy, ih h]

theorem find?_modifyFirst_same {p : α → Bool} {f : α → α} {l : List α} {x : α}
    (hp : ∀ y, p (f y) = p y) (h : l.find? p = some x) :
    (modifyFirst p f l).find? p = some (f x) := by
  induction l with
  | nil => simp at h
  | cons y ys ih =>
    rw [List.find?_cons] at h
    by_cases hy : p y
    · simp only [hy, ite_true, Option.some.injEq] at h
      subst h
      simp [modifyFirst, hy, List.find?_cons, hp]
    · simp only [hy, Bool.false_eq_true, ite_false] at h
      simp [modifyFirst, hy, List.find?_cons, ih h]

theorem find?_modifyFirst_of_ne {p q : α → Bool} {f : α → α} {l : List α}
    (hpq : ∀ y, p y = true → q y = false) (hq : ∀ y, q (f y) = q y) :
    (modifyFirst p f l).find? q = l.find? q := by
  induction l with
  | nil => rfl
  | cons y ys ih =>
    by_cases hy : p y
    · simp [modifyFirst, hy, List.find?_cons, hq, hpq y hy]
    · simp only [modifyFirst, hy, Bool.false_eq_true, not_false_iff, ite_false]
      rw [List.find?_cons, List.find?_cons]
      by_cases hqy : q y
      · simp [hqy]
      · simp [hqy, ih]

theorem modifyFirst_modifyFirst_same {p : α → Bool} {f g : α → α} {l : List α}
    (hp : ∀ y, p (f y) = p y) :
    modifyFirst p g (modifyFirst p f l) = modifyFirst p (fun x => g (f x)) l := by
  induction l with
  | nil => rfl
  | cons y ys ih =>
    by_cases hy : p y
    · simp [modifyFirst, hy, hp]
    · simp [modifyFirst, hy, ih]

theorem find?_decomp {p : α → Bool} {l : List α} {x : α} (h : l.find? p = some x) :
    ∃ l₁ l₂, l = l₁ ++ x :: l₂ ∧ ∀ y ∈ l₁, p y = false := by
  induction l with
  | nil => simp at h
  | cons y ys ih =>
    rw [List.find?_cons] at h
    by_cases hy : p y
    · simp only [hy, ite_true, Option.some.injEq] at h
      exact ⟨[], ys, by simp [h], by simp⟩
    · simp only [hy, Bool.false_eq_true, ite_false] at h
      obtain ⟨l₁, l₂, hl, hnot⟩ := ih h
      refine ⟨y :: l₁, l₂, by simp [hl], ?_⟩
      intro z hz
      rcases List.mem_cons.mp hz with hz | hz
      · subst hz; exact Bool.of_not_eq_true hy
      · exact hnot z hz

theorem modifyFirst_append {p : α → Bool} {f : α → α} {l₁ l₂ : List α} {x : α}
    (h₁ : ∀ y ∈ l₁, p y = false) (hx : p x = true) :
    modifyFirst p f (l₁ ++ x :: l₂) = l₁ ++ f x :: l₂ := by
  induction l₁ with
  | nil => simp [modifyFirst, hx]
  | cons y ys ih =>
    have hy : p y = false := h₁ y (List.mem_cons_self y ys)
    simp only [List.cons_append, modifyFirst, hy, Bool.false_eq_true, ite_false,
      List.append_eq]
    rw [ih (fun z hz => h₁ z (List.mem_cons_of_mem y hz))]

theorem find?_append_of_left_none {p : α → Bool} {l₁ l₂ : List α}
    (h₁ : ∀ y ∈ l₁, p y = false) : (l₁ ++ l₂).find? p = l₂.find? p := by
  induction l₁ with
  | nil => rfl
  | cons y ys ih =>
    have hy : p y = false := h₁ y (List.mem_cons_self y ys)
    simp only [List.cons_append, List.find?_cons, hy, Bool.false_eq_true, ite_false]
    exact ih (fun z hz => h₁ z (List.mem_cons_of_mem y hz))

theorem map_modifyFirst {p : α → Bool} {f : α → α} {g : α → β} {l : List α}
    (hg : ∀ y, g (f y) = g y) : (modifyFirst p f l).map g = l.map g := by
  induction l with
  | nil => rfl
  | cons y ys ih =>
    by_cases hy : p y
    · simp [modifyFirst, hy, hg]
    · simp [modifyFirst, hy, ih]

theorem find?_beq_of_mem_nodup {key : α → Nat} {l : List α} {x : α}
    (hnd : (l.map key).Nodup) (hx : x ∈ l) :
    l.find? (fun y => key y == key x) = some x := by
  induction l with
  | nil => simp at hx
  | cons y ys ih =>
    rw [List.map_cons, List.nodup_cons] at hnd
    rcases List.mem_cons.mp hx with hx | hx
    · subst hx
      simp [List.find?_cons]
    · have hne : (key y == key x) = false := by
        simp only [beq_eq_false_iff_ne, ne_eq]
        intro hcontra
        exact hnd.1 (hcontra ▸ List.mem_map_of_mem key hx)
      rw [List.find?_cons, hne]
      exact ih hnd.2 hx

theorem mem_of_len_le_one {l : List α} {a b : α} (hlen : l.length ≤ 1)
    (ha : a ∈ l) (hb : b ∈ l) : a = b := by
  match l with
  | [] => simp at ha
  | [x] =>
    rw [List.mem_singleton] at ha hb
    rw [ha, hb]
  | x :: y :: t => simp at hlen

theorem voteSum_append {l₁ l₂ : List Vote} {aid : Nat} :
    voteSum (l₁ ++ l₂) aid = voteSum l₁ aid + voteSum l₂ aid := by
  induction l₁ with
  | nil => simp [voteSum]
  | cons v vs ih =>
    simp only [voteSum, List.cons_append, List.foldr_cons] at *
    rw [ih]
    ring

theorem voteSum_modifyFirst {p : Vote → Bool} {f : Vote → Vote} {l : List Vote}
    {v : Vote} {aid : Nat} (h : l.find? p = some v) :
    voteSum (modifyFirst p f l) aid = voteSum l aid - voteContrib aid v + voteContrib aid (f v) := by
  induction l with
  | nil => simp at h
  | cons w ws ih =>
    rw [List.find?_cons] at h
    by_cases hw : p w
    · simp only [hw, ite_true, Option.some.injEq] at h
      subst h
      simp only [modifyFirst, hw, ite_true, voteSum, List.foldr_cons]
      ring
    · simp only [hw, Bool.false_eq_true, ite_false] at h
      simp only [modifyFirst, hw, Bool.false_eq_true, ite_false, voteSum, List.foldr_cons]
      have := ih h
      simp only [voteSum] at this
      rw [this]
      ring

theorem voteSum_eraseP {p : Vote → Bool} {l : List Vote} {v : Vote} {aid : Nat}
    (h : l.find? p = some v) :
    voteSum (l.eraseP p) aid = voteSum l aid - voteContrib aid v := by
  induction l with
  | nil => simp at h
  | cons w ws ih =>
    rw [List.find?_cons] at h
    by_cases hw : p w
    · simp only [hw, ite_true, Option.some.injEq] at h
      subst h
      simp only [List.eraseP_cons, hw, cond_true, voteSum, List.foldr_cons]
      ring
    · simp only [hw, Bool.false_eq_true, ite_false] at h
      have hw' : p w = false := Bool.of_not_eq_true hw
      simp only [List.eraseP_cons, hw', cond_false, voteSum, List.foldr_cons]
      have := ih h
      simp only [voteSum] at this
      rw [this]
      ring

/-! ### Frame lemmas: reputation writes touch only the users table -/

theorem applyReputation_answers (db : DB) (u : Nat) (d : Int) :
    (applyReputation db u d).answers = db.answers := by
  unfold applyReputation modifyUser
  split <;> rfl

theorem applyReputation_votes (db : DB) (u : Nat) (d : Int) :
    (applyReputation db u d).votes = db.votes := by
  unfold applyReputation modifyUser
  split <;> rfl

theorem applyReputation_questions (db : DB) (u : Nat) (d : Int) :
    (applyReputation db u d).questions = db.questions := by
  unfold applyReputation modifyUser
  split <;> rfl

theorem addReputation_answers (db : DB) (u : Nat) (d : Int) :
    (addReputation db u d).answers = db.answers := by
  unfold addReputation modifyUser
  split <;> rfl

theorem addReputation_questions (db : DB) (u : Nat) (d : Int) :
    (addReputation db u d).questions = db.questions := by
  unfold addReputation modifyUser
  split <;> rfl

theorem addReputation_votes (db : DB) (u : Nat) (d : Int) :
    (addReputation db u d).votes = db.votes := by
  unfold addReputation modifyUser
  split <;> rfl

/-- Clamped reputation write on a user present in the table, described by a
lookup. -/
theorem findUser_applyReputation (db : DB) {u : Nat} {usr : User} (d : Int)
    (h : findUser db u = some usr) :
    findUser (applyReputation db u d) u =
      some { usr with reputation_score := max 0 (usr.reputation_score + d) } := by
  unfold applyReputation
  rw [h]
  unfold findUser modifyUser at *
  exact find?_modifyFirst_same (fun y => rfl) h

/-- Unclamped reputation write on a user present in the table, described by
a lookup. -/
theorem findUser_addReputation (db : DB) {u : Nat} {usr : User} (d : Int)
    (h : findUser db u = some usr) :
    findUser (addReputation db u d) u =
      some { usr with reputation_score := usr.reputation_score + d } := by
  unfold addReputation
  rw [h]
  unfold findUser modifyUser at *
  exact find?_modifyFirst_same (fun y => rfl) h

/-! ## C8 — self-vote rejection -/

/-- C8: casting a vote on one's own answer always fails with
`selfVoteForbidden` and leaves all state (vote rows, `vote_score`,
`reputation_score`) unchanged: `vote_on_answer` returns the error before any
write, so the committed database is the input. -/
theorem self_vote_always_rejected {db : DB} {uid aid : Nat} {b : Bool} {ans : Answer}
    (hA : findAnswer db aid = some ans) (hSelf : ans.author_id = uid) :
    vote_on_answer uid aid b db = .error .selfVoteForbidden ∧
    runOp db (vote_on_answer uid aid b db) = db := by
  have h : vote_on_answer uid aid b db = .error .selfVoteForbidden := by
    unfold vote_on_answer
    rw [hA]
    simp [hSelf]
  exact ⟨h, by rw [h]; rfl⟩

/-- C8 witness: user 2 voting on their own answer 1 in `exDB` is rejected
with the state unchanged. -/
theorem self_vote_always_rejected_witness :
    findAnswer exDB 1 = some exAnswerX ∧ exAnswerX.author_id = 2 ∧
    vote_on_answer 2 1 true exDB = .error .selfVoteForbidden ∧
    runOp exDB (vote_on_answer 2 1 true exDB) = exDB :=
  ⟨by decide, by decide,
    @self_vote_always_rejected exDB 2 1 true exAnswerX (by decide) (by decide)⟩

/-! ## C9 — failures commit nothing -/

/-- C9: every modelled operation of the vote engine, acceptance state
machine and counter maintainer — vote cast/update/remove through both
stacks, both accept endpoints, answer create/delete, comment create/delete,
question create/delete and the tag-set update — that fails (returns an
error) leaves the committed database exactly as it was; in particular every
`vote_score`, `answer_count`, `comment_count`, `questions_count`,
`answers_count` and `usage_count` and every user's `reputation_score` is
unchanged.  Each handler raises its `HTTPException` before any write or
rolls the transaction back, which `runOp` reflects by committing the
unchanged input on error. -/
theorem failure_commits_nothing {op : CoreOp} {db : DB} {e : ApiError}
    (h : coreOpCall op db = .error e) : applyCoreOp op db = db := by
  unfold applyCoreOp
  rw [h]
  rfl

/-- C9 witness: a non-author calling accept fails with `forbidden` and the
committed state is unchanged. -/
theorem failure_commits_nothing_witness :
    coreOpCall (.accept 2 1) exDB = .error .forbidden ∧
    applyCoreOp (.accept 2 1) exDB = exDB :=
  ⟨rfl, @failure_commits_nothing (.accept 2 1) exDB .forbidden rfl⟩

/-! ## C10 — dedicated vote endpoints never touch reputation -/

/-- C10: the three dedicated vote endpoints of `app/api/v1/votes.py`
(`create_vote`, `update_vote`, `delete_vote`) modify vote rows and the
answer's `vote_score` but never any user row, so every user's
`reputation_score` is unchanged by any successful call (failing calls commit
nothing). -/
theorem v1_vote_endpoints_frame (u : User) (aid vid : Nat) (b : Bool) (db : DB) :
    (∀ db', create_vote u aid b db = .ok db' → db'.users = db.users) ∧
    (∀ db', update_vote u vid b db = .ok db' → db'.users = db.users) ∧
    (∀ db', delete_vote u vid db = .ok db' → db'.users = db.users) := by
  refine ⟨?_, ?_, ?_⟩ <;> intro db' h
  · unfold create_vote at h
    split at h
    · exact absurd h (by simp)
    · split at h
      · exact absurd h (by simp)
      · split at h
        · exact absurd h (by simp)
        · split at h
          · exact absurd h (by simp)
          · cases h
            rfl
  · unfold update_vote at h
    split at h
    · exact absurd h (by simp)
    · split at h
      · exact absurd h (by simp)
      · split at h
        · split at h
          · exact absurd h (by simp)
          · cases h
            rfl
        · cases h
          rfl
  · unfold delete_vote at h
    split at h
    · exact absurd h (by simp)
    · split at h
      · exact absurd h (by simp)
      · cases h
        split
        · rfl
        · rfl

/-- C10 witness: user 1 casting, flipping and deleting a vote on answer 1
via the dedicated endpoints leaves every user row of `exDB` unchanged. -/
theorem v1_vote_endpoints_frame_witness :
    (∃ db', create_vote (mkUser 1 0) 1 true exDB = .ok db' ∧ db'.users = exDB.users) :=
  ⟨runOp exDB (create_vote (mkUser 1 0) 1 true exDB), rfl,
    (v1_vote_endpoints_frame (mkUser 1 0) 1 0 true exDB).1 _ rfl⟩

/-! ## C7 — `tag.usage_count` drifts on tag-set update -/

/-- C7 [code bug in the source]: replacing a question's tag set deletes its
QuestionTag rows without decrementing the removed tags' `usage_count`.
Starting from the consistent `exDBTags` (tag `python` has one live row and
`usage_count = 1`), updating question 1's tags to `["java"]` succeeds and
leaves `python` with `usage_count = 1` but zero live QuestionTag rows, so
`usage_count` no longer equals the number of live rows referencing the
tag. -/
theorem tag_usage_count_drift :
    (exDBTags.question_tags.filter (fun qt => qt.tag_id == 1)).length = 1 ∧
    (exDBTags.tags.find? (fun t => t.name == "python")).map (fun t => t.usage_count) = some 1 ∧
    (∃ db', update_question (mkUser 1 0) 1 ["java"] exDBTags = .ok db' ∧
      (db'.tags.find? (fun t => t.name == "python")).map (fun t => t.usage_count) = some 1 ∧
      (db'.question_tags.filter (fun qt => qt.tag_id == 1)).length = 0) := by
  refine ⟨by decide, by decide, runOp exDBTags (update_question (mkUser 1 0) 1 ["java"] exDBTags), rfl, by decide, by decide⟩

/-! ## C5 — the single-acceptance invariant is violated by the toggle endpoint -/

/-- C5 [code bug in the source]: the toggle-accept endpoint of
`app/api/v1/answers.py` unaccepts by clearing the *target* answer's flag and
nulling the question's pointer without checking that the target is the
accepted answer.  From `exDB`, the question author accepting answer 1,
"unaccepting" answer 2, then accepting answer 2 leaves BOTH answers of
question 1 with `is_accepted = true`, violating the at-most-one-accepted
invariant. -/
theorem single_acceptance_violated :
    ∃ db1 db2 db3,
      v1_accept_answer (mkUser 1 0) 1 true exDB = .ok db1 ∧
      v1_accept_answer (mkUser 1 0) 2 false db1 = .ok db2 ∧
      v1_accept_answer (mkUser 1 0) 2 true db2 = .ok db3 ∧
      (acceptedAnswers db3 1).length = 2 := by
  refine ⟨_, _, _, rfl, rfl, rfl, by decide⟩

/-! ## C4 — accept: the counterexample for the claim as stated -/

/-- C4 counterexample: the claim says a successful
`accept(questionAuthorId, answerId)` *increases the target answer's author's
reputation by 15*.  In `exDBAccepted` answer 1 is already the accepted
answer and its author (user 2) has reputation 20; the call succeeds but is a
no-op — the code first clears the already-accepted target (clamped `-15`)
and then re-adds `+15` — so the author's reputation stays 20 instead of
becoming 35. -/
theorem accept_reaccept_not_plus15 :
    accept_answer 1 1 exDBAccepted = .ok exDBAccepted ∧
    (findUser exDBAccepted 2).map (fun u => u.reputation_score) = some 20 := by
  exact ⟨rfl, by decide⟩

/-! ## C2 — cast-or-update vote: functional correctness -/

/-- C2: on an existing answer whose author is not the voter,
`vote_on_answer` behaves as specified: with no existing vote row it inserts
one and moves `vote_score` by `±1` and the author's clamped reputation by
`+10`/`-2`; with a same-direction row it is a no-op returning the state
unchanged; with an opposite-direction row it flips the row, moves
`vote_score` by `±2` and the clamped reputation by `±20`. -/
theorem vote_on_answer_correct {db : DB} {uid aid : Nat} {b : Bool}
    {ans : Answer} {author : User}
    (hA : findAnswer db aid = some ans) (hSelf : ans.author_id ≠ uid)
    (hU : findUser db ans.author_id = some author) :
    (findVotePair db uid aid = none →
      ∃ db', vote_on_answer uid aid b db = .ok db' ∧
        db'.votes = db.votes ++
          [{ id := freshVoteId db, user_id := uid, answer_id := aid, is_upvote := b }] ∧
        findAnswer db' aid =
          some { ans with vote_score := ans.vote_score + (if b then 1 else -1) } ∧
        findUser db' ans.author_id =
          some { author with reputation_score := max 0 (author.reputation_score + (if b then 10 else -2)) }) ∧
    (∀ v, findVotePair db uid aid = some v → v.is_upvote = b →
      vote_on_answer uid aid b db = .ok db) ∧
    (∀ v, findVotePair db uid aid = some v → v.is_upvote = !b →
      ∃ db', vote_on_answer uid aid b db = .ok db' ∧
        db'.votes = modifyFirst (fun w => w.user_id == uid && w.answer_id == aid)
          (fun w => { w with is_upvote := b }) db.votes ∧
        findAnswer db' aid =
          some { ans with vote_score := ans.vote_score + (if b then 2 else -2) } ∧
        findUser db' ans.author_id =
          some { author with reputation_score := max 0 (author.reputation_score + (if b then 20 else -20)) }) := by
  have hbeq : (ans.author_id == uid) = false := by
    simpa using hSelf
  refine ⟨?_, ?_, ?_⟩
  · -- no existing vote row
    intro hv
    unfold vote_on_answer
    rw [hA]
    simp only [hbeq, Bool.false_eq_true, ite_false, hv]
    refine ⟨_, rfl, ?_, ?_, ?_⟩
    · rw [applyReputation_votes]
      rfl
    · unfold findAnswer
      rw [applyReputation_answers]
      cases b <;>
        exact find?_modifyFirst_same (fun y => rfl) hA
    · have hU2 : findUser (modifyAnswer { db with votes := db.votes ++
          [{ id := freshVoteId db, user_id := uid, answer_id := aid, is_upvote := b }] } aid
          (fun a => { a with vote_score := a.vote_score + (if b then 1 else -1) }))
          ans.author_id = some author := hU
      cases b <;> exact findUser_applyReputation _ _ hU2
  · -- existing same-direction vote row: no-op
    intro v hv hvb
    unfold vote_on_answer
    rw [hA]
    simp only [hbeq, Bool.false_eq_true, ite_false, hv]
    have hlist : modifyFirst (fun w => w.user_id == uid && w.answer_id == aid)
        (fun w => { w with is_upvote := b }) db.votes = db.votes := by
      refine modifyFirst_eq_self hv ?_
      cases v
      cases hvb
      rfl
    rw [hvb]
    cases b <;>
      simp only [Bool.and_false, Bool.not_true, Bool.not_false, Bool.false_and,
        Bool.true_and, Bool.and_true, Bool.false_eq_true, ite_false] <;>
      unfold modifyVotePair <;>
      rw [hlist]
  · -- existing opposite-direction vote row: flip
    intro v hv hvb
    unfold vote_on_answer
    rw [hA]
    simp only [hbeq, Bool.false_eq_true, ite_false, hv]
    cases b
    · -- flipping an upvote to a downvote
      have hup : v.is_upvote = true := by simpa using hvb
      simp only [hup, Bool.not_false, Bool.and_true, ite_true]
      refine ⟨_, rfl, ?_, ?_, ?_⟩
      · rw [applyReputation_votes]
        rfl
      · unfold findAnswer
        rw [applyReputation_answers]
        have : findAnswer (modifyVotePair db uid aid (fun w => { w with is_upvote := false }))
            aid = some ans := hA
        exact find?_modifyFirst_same (fun y => rfl) this
      · have hU2 : findUser (modifyAnswer (modifyVotePair db uid aid
            (fun w => { w with is_upvote := false })) aid
            (fun a => { a with vote_score := a.vote_score - 2 })) ans.author_id =
            some author := hU
        have := findUser_applyReputation _ (-20) hU2
        simpa using this
    · -- flipping a downvote to an upvote
      have hup : v.is_upvote = false := by simpa using hvb
      simp only [hup, Bool.false_and, Bool.false_eq_true, ite_false, Bool.not_false,
        Bool.and_true, ite_true, Bool.true_and]
      refine ⟨_, rfl, ?_, ?_, ?_⟩
      · rw [applyReputation_votes]
        rfl
      · unfold findAnswer
        rw [applyReputation_answers]
        have : findAnswer (modifyVotePair db uid aid (fun w => { w with is_upvote := true }))
            aid = some ans := hA
        exact find?_modifyFirst_same (fun y => rfl) this
      · have hU2 : findUser (modifyAnswer (modifyVotePair db uid aid
            (fun w => { w with is_upvote := true })) aid
            (fun a => { a with vote_score := a.vote_score + 2 })) ans.author_id =
            some author := hU
        have := findUser_applyReputation _ 20 hU2
        simpa using this

/-- C2 witness: user 1's fresh upvote on answer 1 of `exDB` inserts a vote
row, raises the score to 1 and the author's reputation to 10. -/
theorem vote_on_answer_correct_witness :
    ∃ db', vote_on_answer 1 1 true exDB = .ok db' ∧
      db'.votes = exDB.votes ++
        [{ id := freshVoteId exDB, user_id := 1, answer_id := 1, is_upvote := true }] ∧
      findAnswer db' 1 =
        some { exAnswerX with vote_score := exAnswerX.vote_score + (if true then 1 else -1) } ∧
      findUser db' exAnswerX.author_id =
        some { mkUser 2 0 with reputation_score := max 0 ((mkUser 2 0).reputation_score + (if true then 10 else -2)) } :=
  (@vote_on_answer_correct exDB 1 1 true exAnswerX (mkUser 2 0)
    (by decide) (by decide) (by decide)).1 (by decide)

/-! ## C3 — remove vote: functional correctness -/

/-- C3: on an existing answer, `remove_vote` fails with `notFound` when the
caller holds no vote row on the answer; otherwise it deletes the row and
reverses its effect: removing an upvote moves `vote_score` by `-1` and the
author's clamped reputation by `-10`; removing a downvote moves them by `+1`
and `+2`. -/
theorem remove_vote_correct {db : DB} {uid aid : Nat} {ans : Answer} {author : User}
    (hA : findAnswer db aid = some ans)
    (hU : findUser db ans.author_id = some author) :
    (findVotePair db uid aid = none → remove_vote uid aid db = .error .notFound) ∧
    (∀ v, findVotePair db uid aid = some v →
      ∃ db', remove_vote uid aid db = .ok db' ∧
        db'.votes = db.votes.eraseP (fun w => w.user_id == uid && w.answer_id == aid) ∧
        findAnswer db' aid =
          some { ans with vote_score := ans.vote_score + (if v.is_upvote then -1 else 1) } ∧
        findUser db' ans.author_id =
          some { author with reputation_score := max 0 (author.reputation_score + (if v.is_upvote then -10 else 2)) }) := by
  constructor
  · intro hv
    unfold remove_vote
    rw [hA]
    simp only [hv]
  · intro v hv
    unfold remove_vote
    rw [hA]
    simp only [hv]
    refine ⟨_, rfl, ?_, ?_, ?_⟩
    · rw [applyReputation_votes]
      rfl
    · unfold findAnswer
      rw [applyReputation_answers]
      exact find?_modifyFirst_same (fun y => rfl) hA
    · have hU2 : findUser (modifyAnswer db aid
          (fun a => { a with vote_score := a.vote_score + (if v.is_upvote then -1 else 1) }))
          ans.author_id = some author := hU
      exact findUser_applyReputation _ _ hU2

/-- C3 witness: in the state reached after user 1 upvotes answer 1 of
`exDB`, removing that vote deletes the row, returns the score to 0 and the
author's reputation to 0. -/
theorem remove_vote_correct_witness :
    ∃ db', remove_vote 1 1 (applyCoreOp (.vote (.cast 1 1 true)) exDB) = .ok db' ∧
      db'.votes = (applyCoreOp (.vote (.cast 1 1 true)) exDB).votes.eraseP
        (fun w => w.user_id == 1 && w.answer_id == 1) ∧
      findAnswer db' 1 =
        some { ({ exAnswerX with vote_score := 1 } : Answer) with vote_score := (1 : Int) + (if true then -1 else 1) } ∧
      findUser db' 2 =
        some { mkUser 2 10 with reputation_score := max 0 ((10 : Int) + (if true then -10 else 2)) } :=
  (@remove_vote_correct (applyCoreOp (.vote (.cast 1 1 true)) exDB) 1 1
    { exAnswerX with vote_score := 1 } (mkUser 2 10)
    (by decide) (by decide)).2
    { id := freshVoteId exDB, user_id := 1, answer_id := 1, is_upvote := true } (by decide)

/-! ## C1 — ledger/counter equivalence for the vote engine -/

theorem voteSum_single {v : Vote} {i : Nat} : voteSum [v] i = voteContrib i v := by
  simp [voteSum]

theorem findVotePair_answer_id {db : DB} {uid aid : Nat} {v : Vote}
    (h : findVotePair db uid aid = some v) : v.answer_id = aid := by
  unfold findVotePair at h
  have := List.find?_some h
  simp only [Bool.and_eq_true, beq_iff_eq] at this
  exact this.2

theorem answersKeyed_modify {db : DB} {p : Answer → Bool} {g : Answer → Answer}
    (hg : ∀ a, (g a).id = a.id) (hnd : AnswersKeyed db) :
    ((modifyFirst p g db.answers).map (fun a => a.id)).Nodup := by
  rw [map_modifyFirst hg]
  exact hnd

/-- Core step of the ledger/counter argument: if the vote multiset changed
only in answer `aid`'s column, by exactly `δ`, then bumping the vote score
of the row with id `aid` by `δ` preserves the per-answer ledger equality
(distinct answer ids guarantee no shadowed row misses the bump). -/
theorem scoreInvL_modify {A : List Answer} {votes votes' : List Vote} {aid : Nat}
    {δ : Int} {g : Answer → Answer}
    (hg : ∀ a, g a = { a with vote_score := a.vote_score + δ })
    (hnd : (A.map (fun a => a.id)).Nodup)
    (h1 : ∀ i, i ≠ aid → voteSum votes' i = voteSum votes i)
    (h2 : voteSum votes' aid = voteSum votes aid + δ)
    (hinv : ∀ a ∈ A, a.vote_score = voteSum votes a.id) :
    ∀ a ∈ modifyFirst (fun a => a.id == aid) g A, a.vote_score = voteSum votes' a.id := by
  induction A with
  | nil =>
    intro a ha
    simp [modifyFirst] at ha
  | cons y ys ih =>
    rw [List.map_cons, List.nodup_cons] at hnd
    intro a ha
    by_cases hy : (y.id == aid) = true
    · rw [modifyFirst, if_pos hy] at ha
      have hyid : y.id = aid := by simpa using hy
      rcases List.mem_cons.mp ha with rfl | ha
      · rw [hg]
        simp only [hyid, h2]
        rw [hinv y (List.mem_cons_self _ _), hyid]
      · have hane : a.id ≠ aid := by
          intro hcontra
          apply hnd.1
          have hmem : a.id ∈ ys.map (fun a => a.id) := List.mem_map_of_mem _ ha
          rwa [hcontra, ← hyid] at hmem
        rw [h1 _ hane]
        exact hinv a (List.mem_cons_of_mem _ ha)
    · rw [modifyFirst, if_neg hy] at ha
      rcases List.mem_cons.mp ha with rfl | ha
      · have hane : a.id ≠ aid := by simpa using hy
        rw [h1 _ hane]
        exact hinv a (List.mem_cons_self _ _)
      · exact ih hnd.2 (fun a ha' => hinv a (List.mem_cons_of_mem _ ha')) a ha

theorem runOp_ok {db db' : DB} : runOp db (.ok db') = db' := rfl

theorem runOp_error {db : DB} {e : ApiError} : runOp db (.error e) = db := rfl

theorem modifyAnswer_answers (db : DB) (aid : Nat) (f : Answer → Answer) :
    (modifyAnswer db aid f).answers = modifyFirst (fun a => a.id == aid) f db.answers := rfl

theorem modifyAnswer_votes (db : DB) (aid : Nat) (f : Answer → Answer) :
    (modifyAnswer db aid f).votes = db.votes := rfl

theorem modifyVotePair_answers (db : DB) (uid aid : Nat) (f : Vote → Vote) :
    (modifyVotePair db uid aid f).answers = db.answers := rfl

theorem modifyVotePair_votes (db : DB) (uid aid : Nat) (f : Vote → Vote) :
    (modifyVotePair db uid aid f).votes =
      modifyFirst (fun v => v.user_id == uid && v.answer_id == aid) f db.votes := rfl

theorem modifyVote_answers (db : DB) (vid : Nat) (f : Vote → Vote) :
    (modifyVote db vid f).answers = db.answers := rfl

theorem modifyVote_votes (db : DB) (vid : Nat) (f : Vote → Vote) :
    (modifyVote db vid f).votes =
      modifyFirst (fun v => v.id == vid) f db.votes := rfl

theorem cast_preserves {db : DB} {uid aid : Nat} {b : Bool}
    (hnd : AnswersKeyed db) (hinv : ScoreInv db) :
    AnswersKeyed (runOp db (vote_on_answer uid aid b db)) ∧
    ScoreInv (runOp db (vote_on_answer uid aid b db)) := by
  unfold vote_on_answer
  cases hA : findAnswer db aid with
  | none => exact ⟨hnd, hinv⟩
  | some ans =>
    by_cases hself : (ans.author_id == uid) = true
    · simp only [hself, ite_true]
      exact ⟨hnd, hinv⟩
    · simp only [hself, Bool.false_eq_true, ite_false]
      cases hv : findVotePair db uid aid with
      | some existing =>
        have hexaid : existing.answer_id = aid := findVotePair_answer_id hv
        by_cases hflip1 : (existing.is_upvote && !b) = true
        · -- upvote → downvote: score −2, ledger column −2
          simp only [hflip1, ite_true]
          obtain ⟨hup, hbf⟩ : existing.is_upvote = true ∧ b = false := by
            simpa using hflip1
          constructor
          · unfold AnswersKeyed
            simp only [runOp_ok, applyReputation_answers, applyReputation_votes, modifyAnswer_answers, modifyAnswer_votes, modifyVotePair_answers, modifyVotePair_votes]
            exact answersKeyed_modify (fun a => rfl) hnd
          · unfold ScoreInv
            simp only [runOp_ok, applyReputation_answers, applyReputation_votes, modifyAnswer_answers, modifyAnswer_votes, modifyVotePair_answers, modifyVotePair_votes]
            have hsum := fun i => @voteSum_modifyFirst
              (fun v => v.user_id == uid && v.answer_id == aid)
              (fun v => { v with is_upvote := b }) db.votes existing i hv
            refine scoreInvL_modify (δ := -2) (fun a => by simp [sub_eq_add_neg]) hnd ?_ ?_ hinv
            · intro i hi
              rw [hsum i]
              have hc : voteContrib i existing = 0 := by
                simp [voteContrib, hexaid, (by simpa using Ne.symm hi : (aid == i) = false)]
              have hc' : voteContrib i { existing with is_upvote := b } = 0 := by
                simp [voteContrib, hexaid, (by simpa using Ne.symm hi : (aid == i) = false)]
              rw [hc, hc']
              ring
            · rw [hsum aid]
              simp only [voteContrib, hexaid, hup, hbf, beq_self_eq_true, ite_true, Bool.false_eq_true, ite_false]
              ring
        · by_cases hflip2 : (!existing.is_upvote && b) = true
          · -- downvote → upvote: score +2, ledger column +2
            simp only [hflip1, Bool.false_eq_true, ite_false, hflip2, ite_true]
            obtain ⟨hup, hbt⟩ : existing.is_upvote = false ∧ b = true := by
              simpa using hflip2
            constructor
            · unfold AnswersKeyed
              simp only [runOp_ok, applyReputation_answers, applyReputation_votes, modifyAnswer_answers, modifyAnswer_votes, modifyVotePair_answers, modifyVotePair_votes]
              exact answersKeyed_modify (fun a => rfl) hnd
            · unfold ScoreInv
              simp only [runOp_ok, applyReputation_answers, applyReputation_votes, modifyAnswer_answers, modifyAnswer_votes, modifyVotePair_answers, modifyVotePair_votes]
              have hsum := fun i => @voteSum_modifyFirst
                (fun v => v.user_id == uid && v.answer_id == aid)
                (fun v => { v with is_upvote := b }) db.votes existing i hv
              refine scoreInvL_modify (δ := 2) (fun a => rfl) hnd ?_ ?_ hinv
              · intro i hi
                rw [hsum i]
                have hc : voteContrib i existing = 0 := by
                  simp [voteContrib, hexaid, (by simpa using Ne.symm hi : (aid == i) = false)]
                have hc' : voteContrib i { existing with is_upvote := b } = 0 := by
                  simp [voteContrib, hexaid, (by simpa using Ne.symm hi : (aid == i) = false)]
                rw [hc, hc']
                ring
              · rw [hsum aid]
                simp only [voteContrib, hexaid, hup, hbt, beq_self_eq_true, ite_true, Bool.false_eq_true, ite_false]
                ring
          · -- same direction: the vote row is rewritten to itself
            simp only [hflip1, Bool.false_eq_true, ite_false, hflip2]
            have hsame : existing.is_upvote = b := by
              cases hbb : b <;> cases hex : existing.is_upvote <;>
                simp_all
            have hlist : modifyFirst (fun w => w.user_id == uid && w.answer_id == aid)
                (fun w => { w with is_upvote := b }) db.votes = db.votes := by
              refine modifyFirst_eq_self hv ?_
              cases existing
              cases hsame
              rfl
            constructor
            · unfold AnswersKeyed modifyVotePair
              rw [runOp_ok]
              exact hnd
            · unfold ScoreInv modifyVotePair
              rw [runOp_ok]
              intro a ha
              rw [hlist]
              exact hinv a ha
      | none =>
        -- new vote row appended, score ±1
        constructor
        · unfold AnswersKeyed
          simp only [runOp_ok, applyReputation_answers, applyReputation_votes, modifyAnswer_answers, modifyAnswer_votes, modifyVotePair_answers, modifyVotePair_votes]
          exact answersKeyed_modify (fun a => rfl) hnd
        · unfold ScoreInv
          simp only [runOp_ok, applyReputation_answers, applyReputation_votes, modifyAnswer_answers, modifyAnswer_votes, modifyVotePair_answers, modifyVotePair_votes]
          refine scoreInvL_modify (δ := if b then 1 else -1) (fun a => rfl) hnd ?_ ?_ hinv
          · intro i hi
            rw [voteSum_append, voteSum_single]
            have hc : voteContrib i
                { id := freshVoteId db, user_id := uid, answer_id := aid, is_upvote := b } = 0 := by
              simp [voteContrib, (by simpa using Ne.symm hi : (aid == i) = false)]
            rw [hc]
            ring
          · rw [voteSum_append, voteSum_single]
            simp [voteContrib]

theorem drop_preserves {db : DB} {uid aid : Nat}
    (hnd : AnswersKeyed db) (hinv : ScoreInv db) :
    AnswersKeyed (runOp db (remove_vote uid aid db)) ∧
    ScoreInv (runOp db (remove_vote uid aid db)) := by
  unfold remove_vote
  cases hA : findAnswer db aid with
  | none => exact ⟨hnd, hinv⟩
  | some ans =>
    cases hv : findVotePair db uid aid with
    | none => exact ⟨hnd, hinv⟩
    | some v =>
      have hvaid : v.answer_id = aid := findVotePair_answer_id hv
      have hv' : db.votes.find? (fun w => w.user_id == uid && w.answer_id == aid) = some v := hv
      constructor
      · unfold AnswersKeyed
        simp only [runOp_ok, applyReputation_answers, modifyAnswer_answers]
        exact answersKeyed_modify (fun a => rfl) hnd
      · unfold ScoreInv
        simp only [runOp_ok, applyReputation_answers, applyReputation_votes,
          modifyAnswer_answers, modifyAnswer_votes]
        refine scoreInvL_modify (δ := if v.is_upvote then -1 else 1) (fun a => rfl) hnd ?_ ?_ hinv
        · intro i hi
          rw [voteSum_eraseP hv']
          have hc : voteContrib i v = 0 := by
            simp [voteContrib, hvaid, (by simpa using Ne.symm hi : (aid == i) = false)]
          rw [hc]
          ring
        · rw [voteSum_eraseP hv']
          cases hu : v.is_upvote <;>
            simp only [voteContrib, hvaid, beq_self_eq_true, ite_true, hu,
              Bool.false_eq_true, ite_false] <;>
            ring

theorem v1Create_preserves {db : DB} {u : User} {aid : Nat} {b : Bool}
    (hnd : AnswersKeyed db) (hinv : ScoreInv db) :
    AnswersKeyed (runOp db (create_vote u aid b db)) ∧
    ScoreInv (runOp db (create_vote u aid b db)) := by
  unfold create_vote
  by_cases hver : (!u.is_verified) = true
  · simp only [hver, ite_true]
    exact ⟨hnd, hinv⟩
  · simp only [hver, Bool.false_eq_true, ite_false]
    cases hA : findAnswer db aid with
    | none => exact ⟨hnd, hinv⟩
    | some ans =>
      by_cases hself : (!(decide (u.id ≠ ans.author_id))) = true
      · simp only [hself, ite_true]
        exact ⟨hnd, hinv⟩
      · simp only [hself, Bool.false_eq_true, ite_false]
        cases hv : findVotePair db u.id aid with
        | some w => exact ⟨hnd, hinv⟩
        | none =>
          constructor
          · unfold AnswersKeyed
            simp only [runOp_ok, modifyAnswer_answers]
            exact answersKeyed_modify (fun a => rfl) hnd
          · unfold ScoreInv
            simp only [runOp_ok, modifyAnswer_answers, modifyAnswer_votes]
            refine scoreInvL_modify (δ := if b then 1 else -1) (fun a => rfl) hnd ?_ ?_ hinv
            · intro i hi
              rw [voteSum_append, voteSum_single]
              have hc : voteContrib i
                  { id := freshVoteId db, user_id := u.id, answer_id := aid, is_upvote := b } = 0 := by
                simp [voteContrib, (by simpa using Ne.symm hi : (aid == i) = false)]
              rw [hc]
              ring
            · rw [voteSum_append, voteSum_single]
              simp [voteContrib]

theorem v1Update_preserves {db : DB} {u : User} {vid : Nat} {b : Bool}
    (hnd : AnswersKeyed db) (hinv : ScoreInv db) :
    AnswersKeyed (runOp db (update_vote u vid b db)) ∧
    ScoreInv (runOp db (update_vote u vid b db)) := by
  unfold update_vote
  cases hv : findVote db vid with
  | none => exact ⟨hnd, hinv⟩
  | some vote =>
    by_cases howner : (vote.user_id != u.id) = true
    · simp only [howner, ite_true]
      exact ⟨hnd, hinv⟩
    · simp only [howner, Bool.false_eq_true, ite_false]
      by_cases hdir : (vote.is_upvote != b) = true
      · simp only [hdir, ite_true]
        cases hA : findAnswer db vote.answer_id with
        | none => exact ⟨hnd, hinv⟩
        | some ans =>
          have hv' : db.votes.find? (fun w => w.id == vid) = some vote := hv
          have hsum := fun i => @voteSum_modifyFirst (fun w => w.id == vid)
            (fun w => { w with is_upvote := b }) db.votes vote i hv'
          constructor
          · unfold AnswersKeyed
            simp only [runOp_ok, modifyVote_answers, modifyAnswer_answers]
            exact answersKeyed_modify (fun a => rfl) hnd
          · unfold ScoreInv
            simp only [runOp_ok, modifyVote_answers, modifyVote_votes,
              modifyAnswer_answers, modifyAnswer_votes]
            refine scoreInvL_modify
              (δ := if vote.is_upvote && !b then -2 else 2) (fun a => rfl) hnd ?_ ?_ hinv
            · intro i hi
              rw [hsum i]
              have hc : voteContrib i vote = 0 := by
                simp [voteContrib, (by simpa using Ne.symm hi : (vote.answer_id == i) = false)]
              have hc' : voteContrib i { vote with is_upvote := b } = 0 := by
                simp [voteContrib, (by simpa using Ne.symm hi : (vote.answer_id == i) = false)]
              rw [hc, hc']
              ring
            · rw [hsum vote.answer_id]
              cases hu : vote.is_upvote <;> cases hb2 : b
              · rw [hu, hb2] at hdir
                simp at hdir
              · simp [voteContrib, hu, hb2]
                try ring
              · simp [voteContrib, hu, hb2]
                try ring
              · rw [hu, hb2] at hdir
                simp at hdir
      · simp only [hdir, Bool.false_eq_true, ite_false]
        exact ⟨hnd, hinv⟩

theorem v1Delete_preserves {db : DB} {u : User} {vid : Nat}
    (hnd : AnswersKeyed db) (hinv : ScoreInv db) :
    AnswersKeyed (runOp db (delete_vote u vid db)) ∧
    ScoreInv (runOp db (delete_vote u vid db)) := by
  unfold delete_vote
  cases hv : findVote db vid with
  | none => exact ⟨hnd, hinv⟩
  | some vote =>
    by_cases howner : (vote.user_id != u.id) = true
    · simp only [howner, ite_true]
      exact ⟨hnd, hinv⟩
    · simp only [howner, Bool.false_eq_true, ite_false]
      have hv' : db.votes.find? (fun w => w.id == vid) = some vote := hv
      cases hA : findAnswer db vote.answer_id with
      | none =>
        constructor
        · exact hnd
        · unfold ScoreInv
          simp only [runOp_ok]
          intro a ha
          rw [voteSum_eraseP hv']
          have hane : ¬((a.id == vote.answer_id) = true) := by
            have := List.find?_eq_none.mp hA a ha
            simpa using this
          have hc : voteContrib a.id vote = 0 := by
            simp only [voteContrib]
            rw [if_neg (by simpa using fun hcontra => hane (by simp [hcontra]))]
          rw [hc]
          have := hinv a ha
          rw [this]
          ring
      | some ans =>
        constructor
        · unfold AnswersKeyed
          simp only [runOp_ok, modifyAnswer_answers]
          exact answersKeyed_modify (fun a => rfl) hnd
        · unfold ScoreInv
          simp only [runOp_ok, modifyAnswer_answers, modifyAnswer_votes]
          refine scoreInvL_modify (δ := if vote.is_upvote then -1 else 1)
            (fun a => rfl) hnd ?_ ?_ hinv
          · intro i hi
            rw [voteSum_eraseP hv']
            have hc : voteContrib i vote = 0 := by
              simp [voteContrib, (by simpa using Ne.symm hi : (vote.answer_id == i) = false)]
            rw [hc]
            ring
          · rw [voteSum_eraseP hv']
            cases hu : vote.is_upvote <;>
              simp only [voteContrib, beq_self_eq_true, ite_true, hu,
                Bool.false_eq_true, ite_false] <;>
              ring

theorem applyVoteOp_preserves {db : DB} (op : VoteOp)
    (hnd : AnswersKeyed db) (hinv : ScoreInv db) :
    AnswersKeyed (applyVoteOp db op) ∧ ScoreInv (applyVoteOp db op) := by
  cases op with
  | cast u a b => exact cast_preserves hnd hinv
  | drop u a => exact drop_preserves hnd hinv
  | v1Create u a b => exact v1Create_preserves hnd hinv
  | v1Update u v b => exact v1Update_preserves hnd hinv
  | v1Delete u v => exact v1Delete_preserves hnd hinv

/-- C1: ledger/counter equivalence.  In any database with distinct answer
ids in which every answer's `vote_score` equals the sum over its live vote
rows (+1 per upvote, −1 per downvote), that equality still holds for every
answer after any sequence of cast, update and remove vote operations,
through either the service vote handlers or the dedicated v1 endpoints. -/
theorem vote_ledger_equivalence (ops : List VoteOp) (db : DB)
    (hnd : AnswersKeyed db) (hinv : ScoreInv db) :
    ScoreInv (applyVoteOps db ops) := by
  induction ops generalizing db with
  | nil => exact hinv
  | cons op ops ih =>
    have h := applyVoteOp_preserves op hnd hinv
    exact ih _ h.1 h.2

/-- C1 witness: from `exDB` (all scores 0, no votes), the ledger equality
holds after user 1 upvotes answer 1, user 3 downvotes it, and user 1 removes
their vote again. -/
theorem vote_ledger_equivalence_witness :
    AnswersKeyed exDB ∧ ScoreInv exDB ∧
    ScoreInv (applyVoteOps exDB [.cast 1 1 true, .cast 3 1 false, .drop 1 1]) :=
  ⟨by decide, by decide,
    vote_ledger_equivalence [.cast 1 1 true, .cast 3 1 false, .drop 1 1] exDB
      (by decide) (by decide)⟩

/-! ## Lookup propagation through single-row writes -/

theorem modifyQuestion_answers (db : DB) (qid : Nat) (f : Question → Question) :
    (modifyQuestion db qid f).answers = db.answers := rfl

theorem modifyQuestion_users (db : DB) (qid : Nat) (f : Question → Question) :
    (modifyQuestion db qid f).users = db.users := rfl

theorem modifyAnswer_users (db : DB) (aid : Nat) (f : Answer → Answer) :
    (modifyAnswer db aid f).users = db.users := rfl

theorem findAnswer_modifyAnswer_same {db : DB} {aid : Nat} {x : Answer}
    (f : Answer → Answer) (hid : ∀ a, (f a).id = a.id)
    (h : findAnswer db aid = some x) :
    findAnswer (modifyAnswer db aid f) aid = some (f x) := by
  unfold findAnswer modifyAnswer at *
  exact find?_modifyFirst_same (fun y => by simp [hid y]) h

theorem findAnswer_modifyAnswer_ne {db : DB} {aid aid' : Nat}
    (f : Answer → Answer) (hid : ∀ a, (f a).id = a.id) (hne : aid' ≠ aid) :
    findAnswer (modifyAnswer db aid f) aid' = findAnswer db aid' := by
  unfold findAnswer modifyAnswer
  refine find?_modifyFirst_of_ne ?_ (fun y => by simp [hid y])
  intro y hy
  have : y.id = aid := by simpa using hy
  simp [this, Ne.symm hne]

theorem findQuestion_modifyQuestion_same {db : DB} {qid : Nat} {x : Question}
    (f : Question → Question) (hid : ∀ q, (f q).id = q.id)
    (h : findQuestion db qid = some x) :
    findQuestion (modifyQuestion db qid f) qid = some (f x) := by
  unfold findQuestion modifyQuestion at *
  exact find?_modifyFirst_same (fun y => by simp [hid y]) h

theorem findUser_applyReputation_ne {db : DB} {u u' : Nat} (d : Int) (hne : u' ≠ u) :
    findUser (applyReputation db u d) u' = findUser db u' := by
  unfold applyReputation
  cases h : findUser db u with
  | none => rfl
  | some usr =>
    unfold findUser modifyUser
    refine find?_modifyFirst_of_ne ?_ (fun y => rfl)
    intro y hy
    have : y.id = u := by simpa using hy
    simp [this, Ne.symm hne]

theorem findUser_addReputation_ne {db : DB} {u u' : Nat} (d : Int) (hne : u' ≠ u) :
    findUser (addReputation db u d) u' = findUser db u' := by
  unfold addReputation
  cases h : findUser db u with
  | none => rfl
  | some usr =>
    unfold findUser modifyUser
    refine find?_modifyFirst_of_ne ?_ (fun y => rfl)
    intro y hy
    have : y.id = u := by simpa using hy
    simp [this, Ne.symm hne]

/-- In a table with distinct answer ids, the row found by any predicate is
also the row found by its own id. -/
theorem findAnswer_of_find?_nodup {db : DB} {p : Answer → Bool} {x : Answer}
    (hnd : AnswersKeyed db) (h : db.answers.find? p = some x) :
    findAnswer db x.id = some x := by
  unfold findAnswer
  have hmem : x ∈ db.answers := List.mem_of_find?_eq_some h
  exact find?_beq_of_mem_nodup hnd hmem

/-! ## C4 — accept: the amended functional contract -/

theorem findAnswer_addReputation (db : DB) (u : Nat) (d : Int) (aid : Nat) :
    findAnswer (addReputation db u d) aid = findAnswer db aid := by
  unfold findAnswer
  rw [addReputation_answers]

theorem findAnswer_applyReputation (db : DB) (u : Nat) (d : Int) (aid : Nat) :
    findAnswer (applyReputation db u d) aid = findAnswer db aid := by
  unfold findAnswer
  rw [applyReputation_answers]

theorem findAnswer_modifyQuestion (db : DB) (qid : Nat) (f : Question → Question) (aid : Nat) :
    findAnswer (modifyQuestion db qid f) aid = findAnswer db aid := rfl

theorem findQuestion_addReputation (db : DB) (u : Nat) (d : Int) (qid : Nat) :
    findQuestion (addReputation db u d) qid = findQuestion db qid := by
  unfold findQuestion
  rw [addReputation_questions]

theorem findQuestion_applyReputation (db : DB) (u : Nat) (d : Int) (qid : Nat) :
    findQuestion (applyReputation db u d) qid = findQuestion db qid := by
  unfold findQuestion
  rw [applyReputation_questions]

theorem findQuestion_modifyAnswer (db : DB) (aid : Nat) (f : Answer → Answer) (qid : Nat) :
    findQuestion (modifyAnswer db aid f) qid = findQuestion db qid := rfl

theorem findUser_modifyQuestion (db : DB) (qid : Nat) (f : Question → Question) (u : Nat) :
    findUser (modifyQuestion db qid f) u = findUser db u := rfl

theorem findUser_modifyAnswer (db : DB) (aid : Nat) (f : Answer → Answer) (u : Nat) :
    findUser (modifyAnswer db aid f) u = findUser db u := rfl

/-- C4 (amended): `accept_answer` fails with `forbidden` unless the caller
is the question's author and with the closed-question conflict error when
the question is closed.  Otherwise, *provided the target answer is not
already the question's accepted answer*: if the question has no accepted
answer, the target is marked accepted, the question's flag and
`accepted_answer_id` are set and the target author's reputation rises by
15; if a different answer is currently accepted, its flag is cleared before
the target is marked accepted, and the reputation effects compose per
author — with distinct authors the cleared answer's author drops by 15
clamped at 0 and the target's author rises by 15, while a shared author
ends at `max 0 (reputation − 15) + 15`.  (The unamended claim promised a
`+15` rise on every successful call; re-accepting the already-accepted
answer instead leaves its author at `max 0 (reputation − 15) + 15`, which
the counterexample exhibits at reputation 20, where the call is a no-op.) -/
theorem accept_answer_correct {db : DB} {caller aid : Nat} {ans : Answer}
    {q : Question} {author : User}
    (hA : findAnswer db aid = some ans)
    (hQ : findQuestion db ans.question_id = some q)
    (hU : findUser db ans.author_id = some author) :
    (q.author_id ≠ caller → accept_answer caller aid db = .error .forbidden) ∧
    (q.author_id = caller → q.is_closed = true →
      accept_answer caller aid db = .error .badRequest) ∧
    (q.author_id = caller → q.is_closed = false → q.has_accepted_answer = false →
      ∃ db', accept_answer caller aid db = .ok db' ∧
        findAnswer db' aid = some { ans with is_accepted := true } ∧
        findQuestion db' ans.question_id =
          some { q with has_accepted_answer := true, accepted_answer_id := some aid } ∧
        findUser db' ans.author_id =
          some { author with reputation_score := author.reputation_score + 15 }) ∧
    (q.author_id = caller → q.is_closed = false → q.has_accepted_answer = true →
      ∀ cur, db.answers.find?
          (fun a => a.question_id == ans.question_id && a.is_accepted) = some cur →
        cur.id ≠ aid →
        ∀ curAuthor, findUser db cur.author_id = some curAuthor →
        AnswersKeyed db →
        ∃ db', accept_answer caller aid db = .ok db' ∧
          findAnswer db' cur.id = some { cur with is_accepted := false } ∧
          findAnswer db' aid = some { ans with is_accepted := true } ∧
          findQuestion db' ans.question_id =
            some { q with has_accepted_answer := true, accepted_answer_id := some aid } ∧
          (cur.author_id = ans.author_id →
            findUser db' ans.author_id =
              some { author with reputation_score := max 0 (author.reputation_score - 15) + 15 }) ∧
          (cur.author_id ≠ ans.author_id →
            findUser db' cur.author_id =
              some { curAuthor with reputation_score := max 0 (curAuthor.reputation_score - 15) } ∧
            findUser db' ans.author_id =
              some { author with reputation_score := author.reputation_score + 15 })) := by
  refine ⟨?_, ?_, ?_, ?_⟩
  · -- not the question author
    intro hne
    unfold accept_answer
    rw [hA]
    simp only [hQ, bne_iff_ne, ne_eq, hne, not_false_iff, ite_true]
  · -- closed question
    intro hauth hclosed
    unfold accept_answer
    rw [hA]
    simp only [hQ, hauth, bne_self_eq_false, Bool.false_eq_true, ite_false, hclosed,
      ite_true]
  · -- no currently accepted answer
    intro hauth hclosed hhas
    unfold accept_answer
    rw [hA]
    simp only [hQ, hauth, bne_self_eq_false, Bool.false_eq_true, ite_false, hclosed,
      hhas]
    refine ⟨_, rfl, ?_, ?_, ?_⟩
    · rw [findAnswer_addReputation, findAnswer_modifyQuestion]
      exact findAnswer_modifyAnswer_same _ (fun a => rfl) hA
    · have hQ2 : findQuestion (modifyAnswer db aid (fun a => { a with is_accepted := true })) ans.question_id = some q := hQ
      rw [findQuestion_addReputation, findQuestion_modifyQuestion_same (fun qq => { qq with has_accepted_answer := true, accepted_answer_id := some aid }) (fun qq => rfl) hQ2]
      simp [hauth, hclosed]
    · have hU2 : findUser (modifyQuestion (modifyAnswer db aid (fun a => { a with is_accepted := true })) ans.question_id (fun qq => { qq with has_accepted_answer := true, accepted_answer_id := some aid })) ans.author_id = some author := hU
      exact findUser_addReputation _ 15 hU2
  · -- a different accepted answer is cleared first
    intro hauth hclosed hhas cur hcur hcurne curAuthor hCurU hkeyed
    unfold accept_answer
    rw [hA]
    simp only [hQ, hauth, bne_self_eq_false, Bool.false_eq_true, ite_false, hclosed,
      hhas, hcur, ite_true]
    have hcura : findAnswer db cur.id = some cur := findAnswer_of_find?_nodup hkeyed hcur
    refine ⟨_, rfl, ?_, ?_, ?_, ?_, ?_⟩
    · -- the previously accepted answer is cleared
      rw [findAnswer_addReputation, findAnswer_modifyQuestion,
        findAnswer_modifyAnswer_ne (fun a => { a with is_accepted := true }) (fun a => rfl) hcurne,
        findAnswer_applyReputation]
      exact findAnswer_modifyAnswer_same _ (fun a => rfl) hcura
    · -- the target answer is marked accepted
      rw [findAnswer_addReputation, findAnswer_modifyQuestion]
      have hA2 : findAnswer (applyReputation (modifyAnswer db cur.id (fun a => { a with is_accepted := false })) cur.author_id (-15)) aid = some ans := by
        rw [findAnswer_applyReputation,
          findAnswer_modifyAnswer_ne (fun a => { a with is_accepted := false }) (fun a => rfl) (Ne.symm hcurne)]
        exact hA
      exact findAnswer_modifyAnswer_same _ (fun a => rfl) hA2
    · -- the question's pointer and flag are set
      rw [findQuestion_addReputation]
      have hQ2 : findQuestion (modifyAnswer (applyReputation (modifyAnswer db cur.id (fun a => { a with is_accepted := false })) cur.author_id (-15)) aid (fun a => { a with is_accepted := true })) ans.question_id = some q := by
        rw [findQuestion_modifyAnswer, findQuestion_applyReputation, findQuestion_modifyAnswer]
        exact hQ
      rw [findQuestion_modifyQuestion_same (fun qq => { qq with has_accepted_answer := true, accepted_answer_id := some aid }) (fun qq => rfl) hQ2]
      simp [hauth, hclosed]
    · -- a shared author is clamped down 15 and raised 15
      intro hwu
      have hU' : findUser (modifyAnswer db cur.id (fun a => { a with is_accepted := false })) cur.author_id = some author := by
        rw [hwu]
        exact hU
      have h1 := findUser_applyReputation _ (-15) hU'
      have hg : findUser (modifyQuestion (modifyAnswer (applyReputation (modifyAnswer db cur.id (fun a => { a with is_accepted := false })) cur.author_id (-15)) aid (fun a => { a with is_accepted := true })) ans.question_id (fun qq => { qq with has_accepted_answer := true, accepted_answer_id := some aid })) ans.author_id = some { author with reputation_score := max 0 (author.reputation_score + (-15)) } := by
        rw [findUser_modifyQuestion, findUser_modifyAnswer, ← hwu]
        exact h1
      rw [findUser_addReputation _ 15 hg]
      simp [sub_eq_add_neg]
    · -- distinct authors: −15 clamped for the cleared author, +15 for the target's
      intro hcurauth
      constructor
      · rw [findUser_addReputation_ne _ hcurauth, findUser_modifyQuestion,
          findUser_modifyAnswer]
        have hCurU2 : findUser (modifyAnswer db cur.id (fun a => { a with is_accepted := false })) cur.author_id = some curAuthor := hCurU
        rw [findUser_applyReputation _ (-15) hCurU2]
        have harith : curAuthor.reputation_score + (-15) = curAuthor.reputation_score - 15 := by
          ring
        rw [harith]
      · have hU2 : findUser (modifyQuestion (modifyAnswer (applyReputation (modifyAnswer db cur.id (fun a => { a with is_accepted := false })) cur.author_id (-15)) aid (fun a => { a with is_accepted := true })) ans.question_id (fun qq => { qq with has_accepted_answer := true, accepted_answer_id := some aid })) ans.author_id = some author := by
          rw [findUser_modifyQuestion, findUser_modifyAnswer,
            findUser_applyReputation_ne _ (Ne.symm hcurauth), findUser_modifyAnswer]
          exact hU
        exact findUser_addReputation _ 15 hU2

/-- C4 witness: from `exDB` extended so that answer 2 is accepted, the
question author re-pointing acceptance at answer 1 clears answer 2 and
accepts answer 1; the two authors differ (3 ≠ 2), so answer 2's author
drops 15 → 0 and answer 1's author rises 0 → 15. -/
theorem accept_answer_correct_witness :
    ∃ db', accept_answer 1 1
        { exDB with
          users := [mkUser 1 0, mkUser 2 0, mkUser 3 15],
          questions := [{ exQuestion with has_accepted_answer := true,
                                          accepted_answer_id := some 2 }],
          answers := [exAnswerX, { exAnswerY with is_accepted := true }] } = .ok db' ∧
      findAnswer db' 2 = some { ({ exAnswerY with is_accepted := true } : Answer) with is_accepted := false } ∧
      findAnswer db' 1 = some { exAnswerX with is_accepted := true } ∧
      findQuestion db' 1 =
        some { ({ exQuestion with has_accepted_answer := true, accepted_answer_id := some 2 } : Question) with
          has_accepted_answer := true, accepted_answer_id := some 1 } ∧
      ((3 : Nat) = 2 →
        findUser db' 2 = some { mkUser 2 0 with reputation_score := max 0 ((mkUser 2 0).reputation_score - 15) + 15 }) ∧
      ((3 : Nat) ≠ 2 →
        findUser db' 3 = some { mkUser 3 15 with reputation_score := max 0 ((mkUser 3 15).reputation_score - 15) } ∧
        findUser db' 2 = some { mkUser 2 0 with reputation_score := (mkUser 2 0).reputation_score + 15 }) :=
  (@accept_answer_correct
    { exDB with
      users := [mkUser 1 0, mkUser 2 0, mkUser 3 15],
      questions := [{ exQuestion with has_accepted_answer := true,
                                      accepted_answer_id := some 2 }],
      answers := [exAnswerX, { exAnswerY with is_accepted := true }] }
    1 1 exAnswerX
    { exQuestion with has_accepted_answer := true, accepted_answer_id := some 2 }
    (mkUser 2 0) (by decide) (by decide) (by decide)).2.2.2
    (by decide) (by decide) (by decide)
    { exAnswerY with is_accepted := true } (by decide) (by decide)
    (mkUser 3 15) (by decide) (by decide)

/-! ## C6 — re-accepting the accepted answer is a no-op -/

theorem DB_ext {a b : DB} (h1 : a.users = b.users) (h2 : a.questions = b.questions)
    (h3 : a.answers = b.answers) (h4 : a.votes = b.votes) (h5 : a.tags = b.tags)
    (h6 : a.question_tags = b.question_tags) (h7 : a.comments = b.comments) : a = b := by
  cases a
  cases b
  simp only [DB.mk.injEq]
  exact ⟨h1, h2, h3, h4, h5, h6, h7⟩

theorem nodup_map_middle {l₁ l₂ : List α} {x : α} {f : α → β}
    (h : ((l₁ ++ x :: l₂).map f).Nodup) :
    (∀ y ∈ l₁, f y ≠ f x) ∧ (∀ y ∈ l₂, f y ≠ f x) := by
  rw [List.map_append, List.map_cons, List.nodup_append] at h
  obtain ⟨h1, h2, hdisj⟩ := h
  constructor
  · intro y hy heq
    exact hdisj (List.mem_map_of_mem f hy) (heq ▸ List.mem_cons_self _ _)
  · intro y hy heq
    exact (List.nodup_cons.mp h2).1 (heq ▸ List.mem_map_of_mem f hy)

theorem unique_of_filter_len_le_one {l : List α} {p : α → Bool} {x : α}
    (hx : l.find? p = some x) (hlen : (l.filter p).length ≤ 1) :
    ∀ y ∈ l, p y = true → y = x := by
  intro y hy hpy
  have hxmem : x ∈ l.filter p :=
    List.mem_filter.mpr ⟨List.mem_of_find?_eq_some hx, List.find?_some hx⟩
  have hymem : y ∈ l.filter p := List.mem_filter.mpr ⟨hy, hpy⟩
  exact mem_of_len_le_one hlen hymem hxmem

/-- Marking the row with id `aid` accepted makes it the first accepted
answer of its question, provided no other row of the question was
accepted. -/
theorem find?_accepted_after_set {A : List Answer} {aid : Nat} {ans : Answer}
    (hA : A.find? (fun a => a.id == aid) = some ans)
    (hPall : ∀ y ∈ A, (y.question_id == ans.question_id && y.is_accepted) = false) :
    (modifyFirst (fun a => a.id == aid) (fun a => { a with is_accepted := true }) A).find?
        (fun a => a.question_id == ans.question_id && a.is_accepted) =
      some { ans with is_accepted := true } := by
  have hpans := List.find?_some hA
  obtain ⟨l₁, l₂, hdec, hnot⟩ := find?_decomp hA
  subst hdec
  rw [modifyFirst_append hnot hpans]
  rw [find?_append_of_left_none (fun y hy => hPall y (List.mem_append_left _ hy))]
  rw [List.find?_cons]
  simp

theorem question_set_accept_self {q : Question} {aid : Nat}
    (hhas : q.has_accepted_answer = true) (hacc : q.accepted_answer_id = some aid) :
    ({ q with has_accepted_answer := true, accepted_answer_id := some aid } : Question) = q := by
  cases q
  simp_all

theorem answer_set_accept_self {a : Answer} (hacc : a.is_accepted = true) :
    ({ a with is_accepted := true } : Answer) = a := by
  cases a
  simp_all

theorem user_set_rep_self {u : User} {r : Int} (h : r = u.reputation_score) :
    ({ u with reputation_score := r } : User) = u := by
  cases u
  simp_all

theorem applyReputation_users_of_found {db : DB} {u : Nat} {usr : User} (d : Int)
    (h : findUser db u = some usr) :
    (applyReputation db u d).users =
      modifyFirst (fun y => y.id == u)
        (fun y => { y with reputation_score := max 0 (y.reputation_score + d) }) db.users := by
  unfold applyReputation
  rw [h]
  rfl

theorem addReputation_users_of_found {db : DB} {u : Nat} {usr : User} (d : Int)
    (h : findUser db u = some usr) :
    (addReputation db u d).users =
      modifyFirst (fun y => y.id == u)
        (fun y => { y with reputation_score := y.reputation_score + d }) db.users := by
  unfold addReputation
  rw [h]
  rfl

theorem modifyQuestion_questions (db : DB) (qid : Nat) (f : Question → Question) :
    (modifyQuestion db qid f).questions =
      modifyFirst (fun x => x.id == qid) f db.questions := rfl

theorem modifyAnswer_questions (db : DB) (aid : Nat) (f : Answer → Answer) :
    (modifyAnswer db aid f).questions = db.questions := rfl

theorem modifyQuestion_votes (db : DB) (qid : Nat) (f : Question → Question) :
    (modifyQuestion db qid f).votes = db.votes := rfl

theorem applyReputation_tags (db : DB) (u : Nat) (d : Int) :
    (applyReputation db u d).tags = db.tags := by
  unfold applyReputation modifyUser
  split <;> rfl

theorem addReputation_tags (db : DB) (u : Nat) (d : Int) :
    (addReputation db u d).tags = db.tags := by
  unfold addReputation modifyUser
  split <;> rfl

theorem applyReputation_question_tags (db : DB) (u : Nat) (d : Int) :
    (applyReputation db u d).question_tags = db.question_tags := by
  unfold applyReputation modifyUser
  split <;> rfl

theorem addReputation_question_tags (db : DB) (u : Nat) (d : Int) :
    (addReputation db u d).question_tags = db.question_tags := by
  unfold addReputation modifyUser
  split <;> rfl

theorem applyReputation_comments (db : DB) (u : Nat) (d : Int) :
    (applyReputation db u d).comments = db.comments := by
  unfold applyReputation modifyUser
  split <;> rfl

theorem addReputation_comments (db : DB) (u : Nat) (d : Int) :
    (addReputation db u d).comments = db.comments := by
  unfold addReputation modifyUser
  split <;> rfl

theorem modifyQuestion_comments (db : DB) (qid : Nat) (f : Question → Question) :
    (modifyQuestion db qid f).comments = db.comments := rfl

theorem modifyAnswer_comments (db : DB) (aid : Nat) (f : Answer → Answer) :
    (modifyAnswer db aid f).comments = db.comments := rfl

theorem modifyQuestion_tags (db : DB) (qid : Nat) (f : Question → Question) :
    (modifyQuestion db qid f).tags = db.tags := rfl

theorem modifyAnswer_tags (db : DB) (aid : Nat) (f : Answer → Answer) :
    (modifyAnswer db aid f).tags = db.tags := rfl

theorem modifyQuestion_question_tags (db : DB) (qid : Nat) (f : Question → Question) :
    (modifyQuestion db qid f).question_tags = db.question_tags := rfl

theorem modifyAnswer_question_tags (db : DB) (aid : Nat) (f : Answer → Answer) :
    (modifyAnswer db aid f).question_tags = db.question_tags := rfl

/-- A state in which answer `aid` is already the accepted answer of its
question (and is the first accepted row the clearing query finds, with its
author holding at least the 15 reputation points the accept awarded) is a
fixed point of `accept_answer`: the handler clears and re-accepts the same
row and takes the author's reputation down and up by the same 15. -/
theorem accept_noop {db1 : DB} {caller aid : Nat} {ansAcc : Answer} {q1 : Question}
    {u1 : User}
    (hA1 : findAnswer db1 aid = some ansAcc)
    (hacc : ansAcc.is_accepted = true)
    (hQ1 : findQuestion db1 ansAcc.question_id = some q1)
    (hauth1 : q1.author_id = caller)
    (hclosed1 : q1.is_closed = false)
    (hhas1 : q1.has_accepted_answer = true)
    (haid1 : q1.accepted_answer_id = some aid)
    (hfindP : db1.answers.find?
      (fun a => a.question_id == ansAcc.question_id && a.is_accepted) = some ansAcc)
    (hU1 : findUser db1 ansAcc.author_id = some u1)
    (hrep1 : 15 ≤ u1.reputation_score) :
    accept_answer caller aid db1 = .ok db1 := by
  have hpa := List.find?_some
    (show db1.answers.find? (fun a => a.id == aid) = some ansAcc from hA1)
  have hidA : ansAcc.id = aid := by simpa using hpa
  unfold accept_answer
  rw [hA1]
  simp only [hQ1, hauth1, bne_self_eq_false, Bool.false_eq_true, ite_false, hclosed1,
    hhas1, hfindP, ite_true]
  refine congrArg Except.ok (DB_ext ?_ ?_ ?_ ?_ ?_ ?_ ?_)
  · -- users: −15 clamped then +15 on the same author cancels at rep ≥ 15
    have hU1' : findUser (modifyAnswer db1 ansAcc.id
        (fun a => { a with is_accepted := false })) ansAcc.author_id = some u1 := hU1
    have hg : findUser (modifyQuestion (modifyAnswer (applyReputation (modifyAnswer db1
        ansAcc.id (fun a => { a with is_accepted := false })) ansAcc.author_id (-15)) aid
        (fun a => { a with is_accepted := true })) ansAcc.question_id
        (fun qq => { qq with has_accepted_answer := true, accepted_answer_id := some aid }))
        ansAcc.author_id =
        some { u1 with reputation_score := max 0 (u1.reputation_score + (-15)) } := by
      rw [findUser_modifyQuestion, findUser_modifyAnswer]
      exact findUser_applyReputation _ (-15) hU1'
    rw [addReputation_users_of_found 15 hg, modifyQuestion_users, modifyAnswer_users,
      applyReputation_users_of_found (-15) hU1', modifyAnswer_users,
      @modifyFirst_modifyFirst_same User (fun y => y.id == ansAcc.author_id)
        (fun y => { y with reputation_score := max 0 (y.reputation_score + (-15)) })
        (fun y => { y with reputation_score := y.reputation_score + 15 })
        db1.users (fun y => rfl)]
    refine modifyFirst_eq_self hU1 ?_
    have harith : max 0 (u1.reputation_score + (-15)) + 15 = u1.reputation_score := by
      omega
    exact user_set_rep_self harith
  · -- questions: the flag and pointer are rewritten to their current values
    rw [addReputation_questions, modifyQuestion_questions, modifyAnswer_questions,
      applyReputation_questions, modifyAnswer_questions]
    exact modifyFirst_eq_self hQ1 (question_set_accept_self hhas1 haid1)
  · -- answers: cleared then re-accepted in place
    rw [addReputation_answers, modifyQuestion_answers, modifyAnswer_answers,
      applyReputation_answers, modifyAnswer_answers, hidA,
      @modifyFirst_modifyFirst_same Answer (fun a => a.id == aid)
        (fun a => { a with is_accepted := false })
        (fun a => { a with is_accepted := true })
        db1.answers (fun y => rfl)]
    exact modifyFirst_eq_self hA1 (answer_set_accept_self hacc)
  · rw [addReputation_votes, modifyQuestion_votes, modifyAnswer_votes,
      applyReputation_votes, modifyAnswer_votes]
  · rw [addReputation_tags, modifyQuestion_tags, modifyAnswer_tags,
      applyReputation_tags, modifyAnswer_tags]
  · rw [addReputation_question_tags, modifyQuestion_question_tags,
      modifyAnswer_question_tags, applyReputation_question_tags,
      modifyAnswer_question_tags]
  · rw [addReputation_comments, modifyQuestion_comments, modifyAnswer_comments,
      applyReputation_comments, modifyAnswer_comments]

/-- After a successful accept performed on a state `dbPre` in which no
answer of the target's question is flagged accepted (the state right after
any required clearing), a second identical accept is a no-op. -/
theorem accept_then_noop {dbPre : DB} {caller aid qid uid : Nat} {ansP : Answer}
    {q : Question} {authorP : User}
    (hA : findAnswer dbPre aid = some ansP)
    (hqid : ansP.question_id = qid)
    (huid : ansP.author_id = uid)
    (hQ : findQuestion dbPre qid = some q)
    (hU : findUser dbPre uid = some authorP)
    (hauth : q.author_id = caller)
    (hclosed : q.is_closed = false)
    (hrep : 0 ≤ authorP.reputation_score)
    (hPall : ∀ y ∈ dbPre.answers,
      (y.question_id == qid && y.is_accepted) = false) :
    accept_answer caller aid
      (addReputation (modifyQuestion (modifyAnswer dbPre aid
        (fun a => { a with is_accepted := true })) qid
        (fun qq => { qq with has_accepted_answer := true, accepted_answer_id := some aid }))
        uid 15) =
    .ok (addReputation (modifyQuestion (modifyAnswer dbPre aid
        (fun a => { a with is_accepted := true })) qid
        (fun qq => { qq with has_accepted_answer := true, accepted_answer_id := some aid }))
        uid 15) := by
  subst hqid
  subst huid
  have hA1 : findAnswer (addReputation (modifyQuestion (modifyAnswer dbPre aid
      (fun a => { a with is_accepted := true })) ansP.question_id
      (fun qq => { qq with has_accepted_answer := true, accepted_answer_id := some aid }))
      ansP.author_id 15) aid = some { ansP with is_accepted := true } := by
    rw [findAnswer_addReputation, findAnswer_modifyQuestion]
    exact findAnswer_modifyAnswer_same _ (fun a => rfl) hA
  have hQ2 : findQuestion (modifyAnswer dbPre aid
      (fun a => { a with is_accepted := true })) ansP.question_id = some q := hQ
  have hQ1 : findQuestion (addReputation (modifyQuestion (modifyAnswer dbPre aid
      (fun a => { a with is_accepted := true })) ansP.question_id
      (fun qq => { qq with has_accepted_answer := true, accepted_answer_id := some aid }))
      ansP.author_id 15) ansP.question_id =
      some { q with has_accepted_answer := true, accepted_answer_id := some aid } := by
    rw [findQuestion_addReputation]
    exact findQuestion_modifyQuestion_same
      (fun qq => { qq with has_accepted_answer := true, accepted_answer_id := some aid })
      (fun qq => rfl) hQ2
  have hU2 : findUser (modifyQuestion (modifyAnswer dbPre aid
      (fun a => { a with is_accepted := true })) ansP.question_id
      (fun qq => { qq with has_accepted_answer := true, accepted_answer_id := some aid }))
      ansP.author_id = some authorP := hU
  have hU1 : findUser (addReputation (modifyQuestion (modifyAnswer dbPre aid
      (fun a => { a with is_accepted := true })) ansP.question_id
      (fun qq => { qq with has_accepted_answer := true, accepted_answer_id := some aid }))
      ansP.author_id 15) ansP.author_id =
      some { authorP with reputation_score := authorP.reputation_score + 15 } := by
    exact findUser_addReputation _ 15 hU2
  have hfindP : (addReputation (modifyQuestion (modifyAnswer dbPre aid
      (fun a => { a with is_accepted := true })) ansP.question_id
      (fun qq => { qq with has_accepted_answer := true, accepted_answer_id := some aid }))
      ansP.author_id 15).answers.find?
      (fun a => a.question_id == ansP.question_id && a.is_accepted) =
      some { ansP with is_accepted := true } := by
    have e : (addReputation (modifyQuestion (modifyAnswer dbPre aid
        (fun a => { a with is_accepted := true })) ansP.question_id
        (fun qq => { qq with has_accepted_answer := true, accepted_answer_id := some aid }))
        ansP.author_id 15).answers =
        modifyFirst (fun a => a.id == aid) (fun a => { a with is_accepted := true })
          dbPre.answers := by
      rw [addReputation_answers, modifyQuestion_answers, modifyAnswer_answers]
    rw [e]
    exact find?_accepted_after_set hA hPall
  exact accept_noop hA1 rfl hQ1 hauth hclosed rfl rfl hfindP hU1
    (show (15 : Int) ≤ authorP.reputation_score + 15 by omega)

theorem all_notP_after_clear {A M1 M2 : List Answer} {cur : Answer} {qid : Nat}
    (hdec : A = M1 ++ cur :: M2)
    (hM1 : ∀ y ∈ M1, (y.question_id == qid && y.is_accepted) = false)
    (hM2 : ∀ y ∈ M2, (y.question_id == qid && y.is_accepted) = false)
    (hkeys : ∀ y ∈ M1, (y.id == cur.id) = false) :
    ∀ y ∈ modifyFirst (fun a => a.id == cur.id)
        (fun a => { a with is_accepted := false }) A,
      (y.question_id == qid && y.is_accepted) = false := by
  subst hdec
  rw [modifyFirst_append hkeys (by simp)]
  intro y hy
  rcases List.mem_append.mp hy with h | h
  · exact hM1 y h
  · rcases List.mem_cons.mp h with rfl | h
    · simp
    · exact hM2 y h

/-- C6: accepting an already-accepted answer is a no-op.  In a database
with distinct answer ids whose acceptance state for the target's question is
consistent (at most one accepted answer, and none when the question's flag
is down) and whose rows all exist, a successful `accept_answer` call reaches
a state that a second identical call maps to itself: every row of every
table, including every user's `reputation_score`, is left exactly as the
first call produced it. -/
theorem accept_answer_idempotent {db : DB} {caller aid : Nat} {ans : Answer}
    {q : Question} {author : User}
    (hKA : AnswersKeyed db)
    (hA : findAnswer db aid = some ans)
    (hQ : findQuestion db ans.question_id = some q)
    (hU : findUser db ans.author_id = some author)
    (hauth : q.author_id = caller)
    (hclosed : q.is_closed = false)
    (hrep : 0 ≤ author.reputation_score)
    (hone : (acceptedAnswers db ans.question_id).length ≤ 1)
    (hflag : q.has_accepted_answer = false →
      acceptedAnswers db ans.question_id = []) :
    ∃ db1, accept_answer caller aid db = .ok db1 ∧
      accept_answer caller aid db1 = .ok db1 := by
  have hpa := List.find?_some
    (show db.answers.find? (fun a => a.id == aid) = some ans from hA)
  have hansid : ans.id = aid := by simpa using hpa
  unfold accept_answer
  rw [hA]
  simp only [hQ, hauth, bne_self_eq_false, Bool.false_eq_true, ite_false, hclosed]
  cases hhas : q.has_accepted_answer with
  | false =>
    simp only [Bool.false_eq_true, ite_false]
    refine ⟨_, rfl, ?_⟩
    refine accept_then_noop hA rfl rfl hQ hU hauth hclosed hrep ?_
    intro y hy
    by_contra hcon
    have hP : (y.question_id == ans.question_id && y.is_accepted) = true := by
      revert hcon
      cases (y.question_id == ans.question_id && y.is_accepted) <;> simp
    have hmem : y ∈ acceptedAnswers db ans.question_id := by
      unfold acceptedAnswers
      exact List.mem_filter.mpr ⟨hy, hP⟩
    rw [hflag hhas] at hmem
    simp at hmem
  | true =>
    simp only [ite_true]
    cases hcur : db.answers.find?
        (fun a => a.question_id == ans.question_id && a.is_accepted) with
    | none =>
      refine ⟨_, rfl, ?_⟩
      refine accept_then_noop hA rfl rfl hQ hU hauth hclosed hrep ?_
      intro y hy
      have := List.find?_eq_none.mp hcur y hy
      revert this
      cases (y.question_id == ans.question_id && y.is_accepted) <;> simp
    | some cur =>
      have huniq : ∀ y ∈ db.answers,
          (y.question_id == ans.question_id && y.is_accepted) = true → y = cur :=
        unique_of_filter_len_le_one hcur hone
      have hPcur := List.find?_some hcur
      obtain ⟨M1, M2, hdec, hM1⟩ := find?_decomp hcur
      have hM2 : ∀ y ∈ M2,
          (y.question_id == ans.question_id && y.is_accepted) = false := by
        have hfil : db.answers.filter
            (fun a => a.question_id == ans.question_id && a.is_accepted) =
            cur :: M2.filter (fun a => a.question_id == ans.question_id && a.is_accepted) := by
          have hM1nil : List.filter
              (fun a => a.question_id == ans.question_id && a.is_accepted) M1 = [] :=
            List.filter_eq_nil_iff.mpr (fun y hy => by simp [hM1 y hy])
          rw [hdec, List.filter_append, hM1nil, List.nil_append, List.filter_cons, hPcur]
          simp
        have hone' : (db.answers.filter
            (fun a => a.question_id == ans.question_id && a.is_accepted)).length ≤ 1 := hone
        rw [hfil] at hone'
        simp only [List.length_cons, Nat.add_le_add_iff_right] at hone'
        have hnil : M2.filter
            (fun a => a.question_id == ans.question_id && a.is_accepted) = [] :=
          List.length_eq_zero.mp (by omega)
        intro y hy
        have := List.filter_eq_nil_iff.mp hnil y hy
        revert this
        cases (y.question_id == ans.question_id && y.is_accepted) <;> simp
      have hkeys : ∀ y ∈ M1, (y.id == cur.id) = false := by
        have hnd := hKA
        unfold AnswersKeyed at hnd
        rw [hdec] at hnd
        intro y hy
        have := (nodup_map_middle hnd).1 y hy
        simpa using this
      by_cases hcid : cur.id = aid
      · -- the currently accepted answer is the target itself
        have hcureq : cur = ans := by
          have h1 : db.answers.find? (fun y => y.id == cur.id) = some cur :=
            find?_beq_of_mem_nodup hKA (List.mem_of_find?_eq_some hcur)
          rw [hcid] at h1
          have h2 : db.answers.find? (fun a => a.id == aid) = some ans := hA
          injection h1.symm.trans h2
        subst hcureq
        have hU' : findUser (modifyAnswer db cur.id
            (fun a => { a with is_accepted := false })) cur.author_id = some author := hU
        have hkey : modifyAnswer db cur.id (fun a => { a with is_accepted := false }) =
            modifyAnswer db aid (fun a => { a with is_accepted := false }) := by
          rw [hcid]
        have hApre : findAnswer (applyReputation (modifyAnswer db cur.id
            (fun a => { a with is_accepted := false })) cur.author_id (-15)) aid =
            some { cur with is_accepted := false } := by
          rw [findAnswer_applyReputation, hkey]
          exact findAnswer_modifyAnswer_same (fun a => { a with is_accepted := false })
            (fun a => rfl) hA
        have hQpre : findQuestion (applyReputation (modifyAnswer db cur.id
            (fun a => { a with is_accepted := false })) cur.author_id (-15))
            cur.question_id = some q := by
          rw [findQuestion_applyReputation, findQuestion_modifyAnswer]
          exact hQ
        have hUpre := findUser_applyReputation _ (-15) hU'
        have hPallPre : ∀ y ∈ (applyReputation (modifyAnswer db cur.id
            (fun a => { a with is_accepted := false })) cur.author_id (-15)).answers,
            (y.question_id == cur.question_id && y.is_accepted) = false := by
          have e : (applyReputation (modifyAnswer db cur.id
              (fun a => { a with is_accepted := false })) cur.author_id (-15)).answers =
              modifyFirst (fun a => a.id == cur.id)
                (fun a => { a with is_accepted := false }) db.answers := by
            rw [applyReputation_answers, modifyAnswer_answers]
          rw [e]
          exact all_notP_after_clear hdec hM1 hM2 hkeys
        refine ⟨_, rfl, ?_⟩
        exact accept_then_noop hApre rfl rfl hQpre hUpre hauth hclosed
          (le_max_left 0 _) hPallPre
      · -- a different answer was accepted
        have hPallPre : ∀ y ∈ (applyReputation (modifyAnswer db cur.id
            (fun a => { a with is_accepted := false })) cur.author_id (-15)).answers,
            (y.question_id == ans.question_id && y.is_accepted) = false := by
          have e : (applyReputation (modifyAnswer db cur.id
              (fun a => { a with is_accepted := false })) cur.author_id (-15)).answers =
              modifyFirst (fun a => a.id == cur.id)
                (fun a => { a with is_accepted := false }) db.answers := by
            rw [applyReputation_answers, modifyAnswer_answers]
          rw [e]
          exact all_notP_after_clear hdec hM1 hM2 hkeys
        have hApre : findAnswer (applyReputation (modifyAnswer db cur.id
            (fun a => { a with is_accepted := false })) cur.author_id (-15)) aid =
            some ans := by
          rw [findAnswer_applyReputation,
            findAnswer_modifyAnswer_ne (fun a => { a with is_accepted := false })
              (fun a => rfl) (fun h => hcid h.symm)]
          exact hA
        have hQpre : findQuestion (applyReputation (modifyAnswer db cur.id
            (fun a => { a with is_accepted := false })) cur.author_id (-15))
            ans.question_id = some q := by
          rw [findQuestion_applyReputation, findQuestion_modifyAnswer]
          exact hQ
        by_cases hwu : cur.author_id = ans.author_id
        · -- the two answers share an author: reputation −15 then +15
          have hU' : findUser (modifyAnswer db cur.id
              (fun a => { a with is_accepted := false })) cur.author_id = some author := by
            rw [hwu]
            exact hU
          have hUpre2 : findUser (applyReputation (modifyAnswer db cur.id (fun a => { a with is_accepted := false })) cur.author_id (-15)) ans.author_id = some { author with reputation_score := max 0 (author.reputation_score + (-15)) } := by
            rw [← hwu]
            exact findUser_applyReputation _ (-15) hU'
          refine ⟨_, rfl, ?_⟩
          exact accept_then_noop hApre rfl rfl hQpre hUpre2 hauth hclosed
            (le_max_left 0 _) hPallPre
        · -- distinct authors: the target author's row is untouched
          have hUpre3 : findUser (applyReputation (modifyAnswer db cur.id (fun a => { a with is_accepted := false })) cur.author_id (-15)) ans.author_id = some author := by
            rw [findUser_applyReputation_ne _ (fun h => hwu h.symm), findUser_modifyAnswer]
            exact hU
          refine ⟨_, rfl, ?_⟩
          exact accept_then_noop hApre rfl rfl hQpre hUpre3 hauth hclosed hrep hPallPre

/-- C6 witness: in `exDB` the question author accepts answer 1; repeating
the call returns the intermediate state unchanged. -/
theorem accept_answer_idempotent_witness :
    ∃ db1, accept_answer 1 1 exDB = .ok db1 ∧ accept_answer 1 1 db1 = .ok db1 :=
  @accept_answer_idempotent exDB 1 1 exAnswerX exQuestion (mkUser 2 0)
    (by decide) (by decide) (by decide) (by decide) (by decide) (by decide)
    (by decide) (by decide) (fun _ => by decide)

end StackIt
